import Mathlib

/-!
Verification of the VSP/MDVSP constructive-scheduling repository.

The Python sources are embedded shallowly:

* costs are modelled as integers (`Int`); every concrete value exercised by
  the programs here (small integers and the sentinel `1e8`) is represented
  exactly by IEEE double arithmetic, so integer arithmetic is a faithful
  model of the float operations the code performs on them;
* cost matrices are row lists (`List (List Int)`) with total accessors whose
  out-of-range default is never exercised on well-formed input;
* Python `None` results are `Option`, raised exceptions are `Except`;
* the mutating loops become explicit folds over the same iteration ranges.
-/

/-- The INFEASIBLE sentinel (`COSTO_INFACTIBLE = 100000000.0`). -/
def INFACTIBLE : Int := 100000000

/-- The VSP "prohibited" sentinel (`COSTO_PROHIBIDO = 0.0`). -/
def PROHIBIDO : Int := 0

/-- Cost matrices, stored by rows. -/
abbrev Mat := List (List Int)

/-- Read cell `(i, j)`; out of range defaults to `0` (never hit on well-formed data). -/
def mget (m : Mat) (i j : Nat) : Int := (m.getD i []).getD j 0

/-- Write cell `(i, j)` (no-op out of range, like `List.set`). -/
def mset (m : Mat) (i j : Nat) (v : Int) : Mat := m.set i ((m.getD i []).set j v)

/-- `m` is a `d × d` matrix. -/
def MatShape (m : Mat) (d : Nat) : Prop := m.length = d ∧ ∀ fila ∈ m, fila.length = d

/-- A VSP service (`Servicio`), identified by its position in the instance list. -/
structure Servicio where
  inicio : Int
  fin : Int
deriving DecidableEq, Repr

instance : Inhabited Servicio := ⟨⟨0, 0⟩⟩

/-- `Servicio.se_traslapa_con`: temporal overlap of two services. -/
def seTraslapaCon (s o : Servicio) : Bool :=
  !(decide (s.fin ≤ o.inicio) || decide (o.fin ≤ s.inicio))

/-- `Servicio.puede_preceder_a`: `s` may run before `o`. -/
def puedePrecederA (s o : Servicio) : Bool := decide (s.fin ≤ o.inicio)

/-- An MDVSP trip (`Viaje`); `idViaje` is its node index among the trips. -/
structure Viaje where
  idViaje : Nat
  inicio : Int
  fin : Int
deriving DecidableEq, Repr

instance : Inhabited Viaje := ⟨⟨0, 0, 0⟩⟩

/-! ## The MDVSP feasibility-matrix builder

`MDVSPDataLoader._construir_matriz_costos_completa`.  In the loader's layout
the depot nodes are the indices below `numeroDepositos` and the trips follow.
Every cell of `matriz_final` is written at most once and only from values of
the read-only base matrix, so the loop is embedded cell by cell. -/

/-- One cell of the built MDVSP matrix (`nd` = number of depots). -/
def mdvspCelda (base : Mat) (nd : Nat) (viajes : List Viaje) (i j : Nat) : Int :=
  if i < nd ∧ j < nd then INFACTIBLE
  else if nd ≤ i ∧ nd ≤ j ∧ i ≠ j then
    let viajeI := viajes.getD (i - nd) default
    let viajeJ := viajes.getD (j - nd) default
    let tiempoDesplazamiento := mget base i j
    if tiempoDesplazamiento ≥ INFACTIBLE then INFACTIBLE
    else if viajeI.fin + tiempoDesplazamiento ≤ viajeJ.inicio then mget base i j
    else INFACTIBLE
  else mget base i j

/-- `_construir_matriz_costos_completa`, materialised over `dim × dim` cells. -/
def construirMatrizCostosCompleta (base : Mat) (nd : Nat) (viajes : List Viaje)
    (dim : Nat) : Mat :=
  (List.range dim).map fun i => (List.range dim).map fun j => mdvspCelda base nd viajes i j

/-! ## The VSP feasibility-matrix builder

`VSPDataLoader._construir_matriz_vsp` mutates the matrix while scanning it in
row-major order, with bidirectional writes, so it is embedded as a fold over
the index pairs in that order. -/

/-- `VSPDataLoader._es_factible_secuencia_temporal`, exactly as written: the
method body ends right after the sentinel check (the remaining lines of its
intended body sit unreachable inside `_cargar_archivo_tim_individual`), so a
call with a finite travel time falls off the end and returns Python `None`. -/
def esFactibleSecuenciaTemporal (servicioOrigen servicioDestino : Servicio)
    (tiempoDesplazamiento : Int) : Option Bool :=
  if tiempoDesplazamiento ≥ INFACTIBLE then some false else none

/-- Python truthiness of an `Option Bool` (`None` is falsy). -/
def truthy : Option Bool → Bool
  | some b => b
  | none => false

/-- The body of the double loop of `_construir_matriz_vsp` at indices `(i, j)`,
acting on the current matrix (`n` = number of services, depot index `n`). -/
def vspRestriccion (servicios : List Servicio) (n : Nat) (m : Mat) (ij : Nat × Nat) : Mat :=
  let i := ij.1
  let j := ij.2
  if mget m i j = PROHIBIDO ∨ mget m i j ≥ INFACTIBLE then
    mset (mset m i j INFACTIBLE) j i INFACTIBLE
  else if i = n ∧ j = n then
    mset m i j INFACTIBLE
  else if i = j ∧ i < n then
    mset m i j INFACTIBLE
  else if i < n ∧ j < n ∧ i ≠ j then
    let servicioI := servicios.getD i default
    let servicioJ := servicios.getD j default
    if seTraslapaCon servicioI servicioJ then
      mset (mset m i j INFACTIBLE) j i INFACTIBLE
    else if !truthy (esFactibleSecuenciaTemporal servicioI servicioJ (mget m i j)) then
      mset m i j INFACTIBLE
    else m
  else m

/-- Row-major index pairs of a `d × d` matrix. -/
def indicesMatriz (d : Nat) : List (Nat × Nat) :=
  (List.range d).flatMap fun i => (List.range d).map fun j => (i, j)

/-- `_construir_matriz_vsp` (`n` services plus the depot at index `n`). -/
def construirMatrizVSP (base : Mat) (servicios : List Servicio) (n : Nat) : Mat :=
  (indicesMatriz (n + 1)).foldl (vspRestriccion servicios n) base

/-! ## Instance validation -/

/-- `MDVSPData._validar_matriz_costos`: the value check
`np.all((matriz >= 0) | (matriz == COSTO_INFACTIBLE))`. -/
def validarMatrizCostos (m : Mat) : Bool :=
  m.all fun fila => fila.all fun c => decide (0 ≤ c ∨ c = INFACTIBLE)

/-- A VSP instance (`VSPData`): `numeroServicios` services, one depot with
`numeroVehiculos` vehicles, and the `(n+1) × (n+1)` cost matrix whose last
index is the depot. -/
structure VSPDatos where
  numeroServicios : Nat
  numeroVehiculos : Nat
  servicios : List Servicio
  matrizCostos : Mat
deriving DecidableEq, Repr

/-- `VSPData._validar_datos` as a predicate: `True` iff no check raises. -/
def validarDatos (d : VSPDatos) : Bool :=
  decide (0 < d.numeroServicios) &&
  (d.servicios.length == d.numeroServicios) &&
  (d.matrizCostos.length == d.numeroServicios + 1 &&
    d.matrizCostos.all fun fila => fila.length == d.numeroServicios + 1) &&
  !((List.range d.servicios.length).any fun i =>
      (List.range' (i + 1) (d.servicios.length - (i + 1))).any fun j =>
        seTraslapaCon (d.servicios.getD i default) (d.servicios.getD j default))

/-! ## Helper lemmas about matrix cells -/

theorem getD_set_self {α : Type} (l : List α) (i : Nat) (x d : α) (h : i < l.length) :
    (l.set i x).getD i d = x := by
  rw [List.getD_eq_getElem?_getD, List.getElem?_set_self h]
  rfl

theorem getD_set_ne {α : Type} (l : List α) {i j : Nat} (h : i ≠ j) (x d : α) :
    (l.set i x).getD j d = l.getD j d := by
  rw [List.getD_eq_getElem?_getD, List.getElem?_set_ne h, ← List.getD_eq_getElem?_getD]

theorem mget_mset_cases (m : Mat) (i j a b : Nat) (v : Int) :
    mget (mset m i j v) a b = v ∨ mget (mset m i j v) a b = mget m a b := by
  unfold mget mset
  rcases eq_or_ne i a with rfl | hai
  · by_cases hi : i < m.length
    · rw [getD_set_self m i _ [] hi]
      rcases eq_or_ne j b with rfl | hbj
      · by_cases hj : j < (m.getD i []).length
        · left; exact getD_set_self _ j v 0 hj
        · right
          rw [List.set_eq_of_length_le (Nat.le_of_not_lt hj)]
      · right; exact getD_set_ne _ hbj v 0
    · right
      rw [List.set_eq_of_length_le (Nat.le_of_not_lt hi)]
  · right
    rw [getD_set_ne m hai _ []]

theorem mget_mset_self (m : Mat) (i j : Nat) (v : Int)
    (hi : i < m.length) (hj : j < (m.getD i []).length) :
    mget (mset m i j v) i j = v := by
  unfold mget mset
  rw [getD_set_self m i _ [] hi]
  exact getD_set_self _ j v 0 hj

theorem getD_mem_of_lt {m : Mat} {i : Nat} (hi : i < m.length) : m.getD i [] ∈ m := by
  rw [List.getD_eq_getElem?_getD, List.getElem?_eq_getElem hi]
  exact List.getElem_mem hi

theorem mset_shape {m : Mat} {d : Nat} (h : MatShape m d) (i j : Nat) (v : Int) :
    MatShape (mset m i j v) d := by
  obtain ⟨hlen, hrow⟩ := h
  by_cases hi : i < m.length
  · refine ⟨by simpa [mset] using hlen, ?_⟩
    intro fila hf
    rcases List.mem_or_eq_of_mem_set hf with hf' | rfl
    · exact hrow _ hf'
    · simpa using hrow _ (getD_mem_of_lt hi)
  · unfold mset
    rw [List.set_eq_of_length_le (Nat.le_of_not_lt hi)]
    exact ⟨hlen, hrow⟩

/-- Every write of `vspRestriccion` writes the sentinel, so a sentinel cell
stays a sentinel. -/
theorem vspRestriccion_preserva_infactible (servicios : List Servicio) (n : Nat)
    (m : Mat) (ij : Nat × Nat) {a b : Nat}
    (h : mget m a b = INFACTIBLE) :
    mget (vspRestriccion servicios n m ij) a b = INFACTIBLE := by
  have haux : ∀ (m' : Mat) (i j : Nat), mget m' a b = INFACTIBLE →
      mget (mset m' i j INFACTIBLE) a b = INFACTIBLE := by
    intro m' i j h'
    rcases mget_mset_cases m' i j a b INFACTIBLE with h2 | h2 <;> simp [h2, h']
  unfold vspRestriccion
  dsimp only
  split
  · exact haux _ _ _ (haux _ _ _ h)
  split
  · exact haux _ _ _ h
  split
  · exact haux _ _ _ h
  split
  · split
    · exact haux _ _ _ (haux _ _ _ h)
    split
    · exact haux _ _ _ h
    · exact h
  · exact h

theorem vspRestriccion_shape {m : Mat} {d : Nat} (servicios : List Servicio) (n : Nat)
    (h : MatShape m d) (ij : Nat × Nat) :
    MatShape (vspRestriccion servicios n m ij) d := by
  unfold vspRestriccion
  dsimp only
  split
  · exact mset_shape (mset_shape h ..) ..
  split
  · exact mset_shape h ..
  split
  · exact mset_shape h ..
  split
  · split
    · exact mset_shape (mset_shape h ..) ..
    split
    · exact mset_shape h ..
    · exact h
  · exact h

/-- Processing the diagonal pair `(i, i)`, `i ≤ n`, always writes the sentinel. -/
theorem vspRestriccion_diagonal (servicios : List Servicio) (n : Nat) {m : Mat}
    (hm : MatShape m (n + 1)) {i : Nat} (hi : i < n + 1) :
    mget (vspRestriccion servicios n m (i, i)) i i = INFACTIBLE := by
  have hlen : i < m.length := by rw [hm.1]; exact hi
  have hrow : i < (m.getD i []).length := by
    rw [hm.2 _ (getD_mem_of_lt hlen)]; exact hi
  have hset : ∀ m' : Mat, MatShape m' (n + 1) →
      mget (mset m' i i INFACTIBLE) i i = INFACTIBLE := by
    intro m' hm'
    exact mget_mset_self m' i i INFACTIBLE (by rw [hm'.1]; exact hi)
      (by rw [hm'.2 _ (getD_mem_of_lt (by rw [hm'.1]; exact hi))]; exact hi)
  unfold vspRestriccion
  dsimp only
  split
  · exact hset _ (mset_shape hm ..)
  split
  · exact hset _ hm
  split
  · exact hset _ hm
  next h1 h2 h3 =>
    exfalso
    rcases Nat.lt_succ_iff_lt_or_eq.mp hi with h | h
    · exact h3 ⟨rfl, h⟩
    · exact h2 ⟨h, h⟩

/-- Shape is preserved along the whole builder fold. -/
theorem foldl_vspRestriccion_shape (servicios : List Servicio) (n : Nat)
    (l : List (Nat × Nat)) :
    ∀ m : Mat, MatShape m (n + 1) →
      MatShape (l.foldl (vspRestriccion servicios n) m) (n + 1) := by
  induction l with
  | nil => intro m hm; exact hm
  | cons ij resto ih =>
      intro m hm
      exact ih _ (vspRestriccion_shape servicios n hm ij)

/-- Sentinel cells survive the rest of the builder fold. -/
theorem foldl_vspRestriccion_preserva (servicios : List Servicio) (n : Nat)
    (l : List (Nat × Nat)) {a b : Nat} :
    ∀ m : Mat, mget m a b = INFACTIBLE →
      mget (l.foldl (vspRestriccion servicios n) m) a b = INFACTIBLE := by
  induction l with
  | nil => intro m hm; exact hm
  | cons ij resto ih =>
      intro m hm
      exact ih _ (vspRestriccion_preserva_infactible servicios n m ij hm)

theorem mem_indicesMatriz {d i j : Nat} (hi : i < d) (hj : j < d) :
    (i, j) ∈ indicesMatriz d := by
  unfold indicesMatriz
  simp only [List.mem_flatMap, List.mem_map, List.mem_range]
  exact ⟨i, hi, j, hj, rfl⟩

/-- The VSP builder forces the whole diagonal to the sentinel. -/
theorem construirMatrizVSP_diagonal (base : Mat) (servicios : List Servicio) (n : Nat)
    (hbase : MatShape base (n + 1)) {i : Nat} (hi : i < n + 1) :
    mget (construirMatrizVSP base servicios n) i i = INFACTIBLE := by
  obtain ⟨l₁, l₂, hsplit⟩ := List.append_of_mem (mem_indicesMatriz hi hi)
  unfold construirMatrizVSP
  rw [hsplit, List.foldl_append, List.foldl_cons]
  exact foldl_vspRestriccion_preserva servicios n l₂ _
    (vspRestriccion_diagonal servicios n
      (foldl_vspRestriccion_shape servicios n l₁ base hbase) hi)

/-! ## Cell access into the materialised MDVSP matrix -/

theorem mget_construirMatrizCostosCompleta (base : Mat) (nd : Nat) (viajes : List Viaje)
    {dim i j : Nat} (hi : i < dim) (hj : j < dim) :
    mget (construirMatrizCostosCompleta base nd viajes dim) i j = mdvspCelda base nd viajes i j := by
  simp [mget, construirMatrizCostosCompleta, List.getD_eq_getElem?_getD,
    List.getElem?_map, List.getElem?_range, hi, hj]

/-- The MDVSP builder applies exactly the claimed rule to distinct trip pairs
whose raw cost is below the sentinel; this is the half of claim C1 that the
code satisfies. -/
theorem mdvspCelda_viajes (base : Mat) (nd : Nat) (viajes : List Viaje) {i j : Nat}
    (hi : nd ≤ i) (hj : nd ≤ j) (hij : i ≠ j) (hfin : mget base i j < INFACTIBLE) :
    mdvspCelda base nd viajes i j =
      if (viajes.getD (i - nd) default).fin + mget base i j ≤
          (viajes.getD (j - nd) default).inicio
      then mget base i j else INFACTIBLE := by
  unfold mdvspCelda
  rw [if_neg (by omega), if_pos ⟨hi, hj, hij⟩]
  simp only [ge_iff_le, not_le.mpr hfin, if_neg (not_le.mpr hfin)]
  split <;> simp_all

/-- C1: code bug in the VSP variant.  For the concrete services `[0,10]` and
`[15,25]` with raw travel cost `5`, the temporal rule of the claim holds
(`10 + 5 ≤ 15`), so the built matrix should keep the raw cost `5`; the builder
nevertheless writes the INFEASIBLE sentinel, because the truncated
`_es_factible_secuencia_temporal` returns `None` for every finite travel
time, which the caller treats as "infeasible". -/
theorem c1_builder_vsp_divergencia :
    mget (construirMatrizVSP [[0,5,10],[5,0,10],[10,10,0]] [⟨0,10⟩, ⟨15,25⟩] 2) 0 1 =
      INFACTIBLE ∧
    Servicio.fin ⟨0,10⟩ + mget [[0,5,10],[5,0,10],[10,10,0]] 0 1 ≤ Servicio.inicio ⟨15,25⟩ ∧
    mget [[0,5,10],[5,0,10],[10,10,0]] 0 1 < INFACTIBLE ∧
    mget [[0,5,10],[5,0,10],[10,10,0]] 0 1 ≠ PROHIBIDO ∧
    seTraslapaCon ⟨0,10⟩ ⟨15,25⟩ = false := by
  decide

/-- C6 counterexample: a matrix whose every cell is `2·10^8`, strictly above
the sentinel, passes `_validar_matriz_costos` (its check `(matriz >= 0) |
(matriz == COSTO_INFACTIBLE)` accepts every non-negative value), refuting the
claim that validation rejects values above the sentinel. -/
theorem c6_contraejemplo :
    validarMatrizCostos [[200000000, 200000000], [200000000, 200000000]] = true ∧
    (200000000 : Int) > INFACTIBLE := by
  decide

/-- C6 amended: `_validar_matriz_costos` accepts a matrix precisely when every
cell is non-negative or equal to the sentinel (and since the sentinel is
itself non-negative, this is exactly "no negative cell"); values strictly
above the sentinel are accepted. -/
theorem c6_enmendada (m : Mat) :
    (validarMatrizCostos m = true ↔ ∀ fila ∈ m, ∀ c ∈ fila, 0 ≤ c ∨ c = INFACTIBLE) ∧
    (validarMatrizCostos m = true ↔ ∀ fila ∈ m, ∀ c ∈ fila, 0 ≤ c) := by
  constructor
  · simp [validarMatrizCostos]
  · simp only [validarMatrizCostos, List.all_eq_true, decide_eq_true_eq]
    constructor
    · intro h fila hf c hc
      rcases h fila hf c hc with h' | h'
      · exact h'
      · rw [h']; decide
    · intro h fila hf c hc
      exact Or.inl (h fila hf c hc)

/-- C7 counterexample: the MDVSP builder (1 depot at index 0, 1 trip at index
1) leaves the trip's diagonal cell at its raw value `3` instead of the
sentinel, because its trip-to-trip branch skips the diagonal. -/
theorem c7_contraejemplo :
    mget (construirMatrizCostosCompleta [[0,1],[2,3]] 1 [⟨0,0,5⟩] 2) 1 1 = 3 ∧
    (3 : Int) ≠ INFACTIBLE := by
  decide

/-- C7 amended: the VSP builder does force every diagonal cell to the
sentinel; the MDVSP builder forces only the depot diagonal cells, and leaves
every trip diagonal cell at its raw base value. -/
theorem c7_enmendada (base : Mat) (servicios : List Servicio) (n : Nat)
    (hbase : MatShape base (n + 1)) :
    (∀ i < n + 1, mget (construirMatrizVSP base servicios n) i i = INFACTIBLE) ∧
    (∀ (base2 : Mat) (nd : Nat) (viajes : List Viaje) (dim d : Nat), d < nd → d < dim →
      mget (construirMatrizCostosCompleta base2 nd viajes dim) d d = INFACTIBLE) ∧
    (∀ (base2 : Mat) (nd : Nat) (viajes : List Viaje) (dim i : Nat), nd ≤ i → i < dim →
      mget (construirMatrizCostosCompleta base2 nd viajes dim) i i = mget base2 i i) := by
  refine ⟨fun i hi => construirMatrizVSP_diagonal base servicios n hbase hi, ?_, ?_⟩
  · intro base2 nd viajes dim d hd hdim
    rw [mget_construirMatrizCostosCompleta base2 nd viajes hdim hdim]
    unfold mdvspCelda
    rw [if_pos ⟨hd, hd⟩]
  · intro base2 nd viajes dim i hnd hdim
    rw [mget_construirMatrizCostosCompleta base2 nd viajes hdim hdim]
    unfold mdvspCelda
    rw [if_neg (by omega), if_neg (by omega)]

/-- C7 amended, witness at a concrete 2-service VSP base matrix. -/
theorem c7_enmendada_testigo :
    mget (construirMatrizVSP [[0,5,10],[5,0,10],[10,10,0]] [⟨0,10⟩, ⟨15,25⟩] 2) 1 1 =
      INFACTIBLE :=
  (c7_enmendada [[0,5,10],[5,0,10],[10,10,0]] [⟨0,10⟩, ⟨15,25⟩] 2
    ⟨rfl, by decide⟩).1 1 (by omega)

/-- Temporal overlap of services is symmetric. -/
theorem seTraslapaCon_comm (s o : Servicio) : seTraslapaCon s o = seTraslapaCon o s := by
  simp [seTraslapaCon, Bool.or_comm]

/-- C10: `VSPData._validar_datos` fails whenever two services overlap, and an
instance that passes validation has pairwise non-overlapping services, so the
overlap test of the matrix builder is false on every pair of its services. -/
theorem c10_validar_traslapes (d : VSPDatos) :
    (validarDatos d = true → ∀ i j : Nat, i < d.servicios.length →
      j < d.servicios.length → i ≠ j →
      seTraslapaCon (d.servicios.getD i default) (d.servicios.getD j default) = false) ∧
    (∀ i j : Nat, i < j → j < d.servicios.length →
      seTraslapaCon (d.servicios.getD i default) (d.servicios.getD j default) = true →
      validarDatos d = false) := by
  constructor
  · intro hv i j hi hj hij
    have hv' := hv
    unfold validarDatos at hv'
    simp only [Bool.and_eq_true, Bool.not_eq_true', List.any_eq_false, List.mem_range] at hv'
    have hpar : ∀ a b : Nat, a < b → b < d.servicios.length →
        seTraslapaCon (d.servicios.getD a default) (d.servicios.getD b default) = false := by
      intro a b hab hb
      have h1 := hv'.2 a (by omega)
      rw [Bool.not_eq_true, List.any_eq_false] at h1
      have h2 := h1 b (by rw [List.mem_range']; exact ⟨b - (a + 1), by omega, by omega⟩)
      simpa using h2
    rcases Nat.lt_or_ge i j with h | h
    · exact hpar i j h hj
    · rw [seTraslapaCon_comm]
      exact hpar j i (by omega) hi
  · intro i j hij hj htras
    unfold validarDatos
    have hany : ((List.range d.servicios.length).any fun a =>
        (List.range' (a + 1) (d.servicios.length - (a + 1))).any fun b =>
          seTraslapaCon (d.servicios.getD a default) (d.servicios.getD b default)) = true := by
      rw [List.any_eq_true]
      refine ⟨i, List.mem_range.mpr (by omega), ?_⟩
      rw [List.any_eq_true]
      refine ⟨j, ?_, htras⟩
      rw [List.mem_range']
      exact ⟨j - (i + 1), by omega, by omega⟩
    rw [hany]
    simp

/-- C10 witness: the overlapping services `[0,10]` and `[5,15]` make
validation fail. -/
theorem c10_testigo :
    validarDatos ⟨2, 1, [⟨0,10⟩, ⟨5,15⟩], [[0,5,10],[5,0,10],[10,10,0]]⟩ = false :=
  (c10_validar_traslapes _).2 0 1 (by omega) (by decide) (by decide)

/-! ## MDVSP data model (`MDVSPData`) and the Concurrent Schedule algorithm

In the model's layout (used by the scheduler and by `MDVSPData`'s accessors)
the trips occupy indices `0 .. numeroViajes-1` and depot `d` is node
`numeroViajes + d`. -/

structure Deposito where
  idDeposito : Nat
  numeroVehiculos : Nat
deriving DecidableEq, Repr

structure MDVSPDatos where
  numeroViajes : Nat
  depositos : List Deposito
  viajes : List Viaje
  matrizViajes : Mat
deriving DecidableEq, Repr

/-- `MDVSPData.obtener_costo`. -/
def obtenerCosto (inst : MDVSPDatos) (origen destino : Nat) : Int :=
  mget inst.matrizViajes origen destino

/-- `instancia.viajes[id]`. -/
def viajeDe (inst : MDVSPDatos) (idViaje : Nat) : Viaje :=
  inst.viajes.getD idViaje default

/-- A vehicle route (`Ruta` of `solution_model`). -/
structure Ruta where
  idVehiculo : Nat
  idDeposito : Nat
  viajes : List Nat
  costoTotal : Int
  tiempoInicio : Option Int
  tiempoFin : Option Int
deriving DecidableEq, Repr

instance : Inhabited Ruta := ⟨⟨0, 0, [], 0, none, none⟩⟩

/-- `Ruta.es_vacia`. -/
def Ruta.esVacia (r : Ruta) : Bool := r.viajes.isEmpty

/-- `Ruta.agregar_viaje` (append at the end, extend cost and window). -/
def Ruta.agregarViaje (r : Ruta) (idViaje : Nat) (costoAdicional : Int)
    (tiempoInicioViaje tiempoFinViaje : Int) : Ruta :=
  { r with
    viajes := r.viajes ++ [idViaje]
    costoTotal := r.costoTotal + costoAdicional
    tiempoInicio := some (match r.tiempoInicio with
      | none => tiempoInicioViaje
      | some t => min t tiempoInicioViaje)
    tiempoFin := some (match r.tiempoFin with
      | none => tiempoFinViaje
      | some t => max t tiempoFinViaje) }

/-- `SolucionMDVSP`. -/
structure SolucionMDVSP where
  rutas : List Ruta
  viajesAsignados : Finset Nat
  costoTotal : Int
  numeroVehiculosUsados : Nat
  esFactible : Bool
deriving DecidableEq

/-- The relative placement argument of `_es_factible_temporalmente`. -/
inductive PosicionRel
  | antes
  | despues
deriving DecidableEq, Repr

/-- `ConcurrentScheduleAlgorithm._es_factible_temporalmente`: pure time-window
precedence against the reference trip; travel time plays no part. -/
def esFactibleTemporalmente (inst : MDVSPDatos) (viajeNuevo : Viaje)
    (viajeReferencia : Nat) (posicion : PosicionRel) : Bool :=
  let viajeRef := viajeDe inst viajeReferencia
  match posicion with
  | .antes => decide (viajeNuevo.fin ≤ viajeRef.inicio)
  | .despues => decide (viajeNuevo.inicio ≥ viajeRef.fin)

/-- `min` against a "so far" value that starts at infinity. -/
def minOpcion (acc : Option Int) (c : Int) : Option Int :=
  match acc with
  | none => some c
  | some b => some (min b c)

/-- The start-position candidate delta of `_calcular_mejor_insercion`. -/
def costoInicioInsercion (inst : MDVSPDatos) (ruta : Ruta) (viaje : Viaje) : Int :=
  obtenerCosto inst (inst.numeroViajes + ruta.idDeposito) viaje.idViaje +
    obtenerCosto inst viaje.idViaje (ruta.viajes.getD 0 0) -
    obtenerCosto inst (inst.numeroViajes + ruta.idDeposito) (ruta.viajes.getD 0 0)

/-- The candidate delta between consecutive trips `i` and `i+1`. -/
def costoMedioInsercion (inst : MDVSPDatos) (ruta : Ruta) (viaje : Viaje) (i : Nat) : Int :=
  obtenerCosto inst (ruta.viajes.getD i 0) viaje.idViaje +
    obtenerCosto inst viaje.idViaje (ruta.viajes.getD (i + 1) 0) -
    obtenerCosto inst (ruta.viajes.getD i 0) (ruta.viajes.getD (i + 1) 0)

/-- The end-position candidate delta of `_calcular_mejor_insercion`. -/
def costoFinalInsercion (inst : MDVSPDatos) (ruta : Ruta) (viaje : Viaje) : Int :=
  obtenerCosto inst (ruta.viajes.getD (ruta.viajes.length - 1) 0) viaje.idViaje +
    obtenerCosto inst viaje.idViaje (inst.numeroViajes + ruta.idDeposito) -
    obtenerCosto inst (ruta.viajes.getD (ruta.viajes.length - 1) 0)
      (inst.numeroViajes + ruta.idDeposito)

/-- Loop body of the middle section of `_calcular_mejor_insercion`. -/
def pasoMedioInsercion (inst : MDVSPDatos) (ruta : Ruta) (viaje : Viaje)
    (acc : Option Int) (i : Nat) : Option Int :=
  if esFactibleTemporalmente inst viaje (ruta.viajes.getD i 0) .despues = true ∧
      esFactibleTemporalmente inst viaje (ruta.viajes.getD (i + 1) 0) .antes = true ∧
      costoMedioInsercion inst ruta viaje i ≠ INFACTIBLE
  then minOpcion acc (costoMedioInsercion inst ruta viaje i) else acc

/-- `_calcular_mejor_insercion` (route known non-empty): best delta over the
start position, every position between consecutive trips, and the end
position, each gated by window feasibility and by "delta ≠ sentinel". -/
def calcularMejorInsercion (inst : MDVSPDatos) (ruta : Ruta) (viaje : Viaje) : Option Int :=
  let acc0 : Option Int :=
    if esFactibleTemporalmente inst viaje (ruta.viajes.getD 0 0) .antes = true ∧
        costoInicioInsercion inst ruta viaje ≠ INFACTIBLE
    then minOpcion none (costoInicioInsercion inst ruta viaje) else none
  let accMedio := (List.range (ruta.viajes.length - 1)).foldl
    (pasoMedioInsercion inst ruta viaje) acc0
  if esFactibleTemporalmente inst viaje (ruta.viajes.getD (ruta.viajes.length - 1) 0)
      .despues = true ∧ costoFinalInsercion inst ruta viaje ≠ INFACTIBLE
  then minOpcion accMedio (costoFinalInsercion inst ruta viaje) else accMedio

/-- `_calcular_costo_asignacion`. -/
def calcularCostoAsignacion (inst : MDVSPDatos) (ruta : Ruta) (viaje : Viaje) : Option Int :=
  let indiceViaje := viaje.idViaje
  let indiceDeposito := inst.numeroViajes + ruta.idDeposito
  if ruta.esVacia then
    let costoIda := obtenerCosto inst indiceDeposito indiceViaje
    let costoVuelta := obtenerCosto inst indiceViaje indiceDeposito
    if costoIda = INFACTIBLE ∨ costoVuelta = INFACTIBLE then none
    else some (costoIda + costoVuelta)
  else calcularMejorInsercion inst ruta viaje

/-- Inner loop body of `_encontrar_mejor_asignacion` (one candidate route). -/
def pasoRutaAsignacion (inst : MDVSPDatos) (rutas : List Ruta) (idViaje : Nat)
    (acc : Option (Nat × Nat × Int)) (idRuta : Nat) : Option (Nat × Nat × Int) :=
  match calcularCostoAsignacion inst (rutas.getD idRuta default) (viajeDe inst idViaje) with
  | none => acc
  | some costo =>
    match acc with
    | none => some (idViaje, idRuta, costo)
    | some mejor => if costo < mejor.2.2 then some (idViaje, idRuta, costo) else acc

/-- Outer loop body of `_encontrar_mejor_asignacion` (one pending trip). -/
def pasoViajeAsignacion (inst : MDVSPDatos) (rutas : List Ruta)
    (acc : Option (Nat × Nat × Int)) (idViaje : Nat) : Option (Nat × Nat × Int) :=
  (List.range rutas.length).foldl (pasoRutaAsignacion inst rutas idViaje) acc

/-- `_encontrar_mejor_asignacion`: the globally cheapest feasible pairing,
first-encountered wins ties. -/
def encontrarMejorAsignacion (inst : MDVSPDatos) (rutas : List Ruta)
    (viajesPendientes : List Nat) : Option (Nat × Nat × Int) :=
  viajesPendientes.foldl (pasoViajeAsignacion inst rutas) none

/-- `_calcular_incremento_costo_posicion`: window gates only, no sentinel
gate on the delta. -/
def calcularIncrementoCostoPosicion (inst : MDVSPDatos) (ruta : Ruta) (viaje : Viaje)
    (posicion : Nat) : Option Int :=
  let indiceNuevoViaje := viaje.idViaje
  let indiceDeposito := inst.numeroViajes + ruta.idDeposito
  if posicion = 0 then
    if ruta.viajes.length = 0 then some 0
    else
      let primerViaje := ruta.viajes.getD 0 0
      if ¬ esFactibleTemporalmente inst viaje primerViaje .antes = true then none
      else some (obtenerCosto inst indiceDeposito indiceNuevoViaje +
        obtenerCosto inst indiceNuevoViaje primerViaje -
        obtenerCosto inst indiceDeposito primerViaje)
  else if posicion = ruta.viajes.length then
    let ultimoViaje := ruta.viajes.getD (ruta.viajes.length - 1) 0
    if ¬ esFactibleTemporalmente inst viaje ultimoViaje .despues = true then none
    else some (obtenerCosto inst ultimoViaje indiceNuevoViaje +
      obtenerCosto inst indiceNuevoViaje indiceDeposito -
      obtenerCosto inst ultimoViaje indiceDeposito)
  else
    let viajeAnterior := ruta.viajes.getD (posicion - 1) 0
    let viajeSiguiente := ruta.viajes.getD posicion 0
    if ¬ esFactibleTemporalmente inst viaje viajeAnterior .despues = true ∨
        ¬ esFactibleTemporalmente inst viaje viajeSiguiente .antes = true then none
    else some (obtenerCosto inst viajeAnterior indiceNuevoViaje +
      obtenerCosto inst indiceNuevoViaje viajeSiguiente -
      obtenerCosto inst viajeAnterior viajeSiguiente)

/-- Loop body of `_encontrar_mejor_posicion_insercion`. -/
def pasoPosicion (inst : MDVSPDatos) (ruta : Ruta) (viaje : Viaje)
    (acc : Nat × Option Int) (posicion : Nat) : Nat × Option Int :=
  match calcularIncrementoCostoPosicion inst ruta viaje posicion with
  | none => acc
  | some incremento =>
    match acc.2 with
    | none => (posicion, some incremento)
    | some menor =>
      if incremento < menor then (posicion, some incremento) else acc

/-- `_encontrar_mejor_posicion_insercion` (defaults to position `0`). -/
def encontrarMejorPosicionInsercion (inst : MDVSPDatos) (ruta : Ruta) (viaje : Viaje) : Nat :=
  ((List.range (ruta.viajes.length + 1)).foldl (pasoPosicion inst ruta viaje) (0, none)).1

/-- `_asignar_viaje_a_ruta`: append into an empty route, otherwise re-search
the position (with `_calcular_incremento_costo_posicion`) and splice there;
the committed `costoAsignacion` is added either way. -/
def asignarViajeARuta (inst : MDVSPDatos) (sol : SolucionMDVSP)
    (idViaje idRuta : Nat) (costoAsignacion : Int) : SolucionMDVSP :=
  let ruta := sol.rutas.getD idRuta default
  let viaje := viajeDe inst idViaje
  let rutaNueva :=
    if ruta.esVacia then
      ruta.agregarViaje idViaje costoAsignacion viaje.inicio viaje.fin
    else
      let mejorPosicion := encontrarMejorPosicionInsercion inst ruta viaje
      { ruta with
        viajes := ruta.viajes.insertIdx mejorPosicion idViaje
        costoTotal := ruta.costoTotal + costoAsignacion
        tiempoInicio := some (match ruta.tiempoInicio with
          | none => viaje.inicio
          | some t => min t viaje.inicio)
        tiempoFin := some (match ruta.tiempoFin with
          | none => viaje.fin
          | some t => max t viaje.fin) }
  { sol with
    rutas := sol.rutas.set idRuta rutaNueva
    viajesAsignados := insert idViaje sol.viajesAsignados }

/-- `_inicializar_solucion`: one empty route per vehicle across all depots,
with running global vehicle ids. -/
def inicializarSolucion (inst : MDVSPDatos) : SolucionMDVSP :=
  { rutas := (inst.depositos.foldl (fun (acc : List Ruta × Nat) dep =>
      (acc.1 ++ (List.range dep.numeroVehiculos).map fun k =>
        { idVehiculo := acc.2 + k, idDeposito := dep.idDeposito, viajes := [],
          costoTotal := 0, tiempoInicio := none, tiempoFin := none },
       acc.2 + dep.numeroVehiculos)) ([], 0)).1
    viajesAsignados := ∅
    costoTotal := 0
    numeroVehiculosUsados := 0
    esFactible := false }

/-- The scheduling state of `resolver`'s main loop. -/
structure EstadoCS where
  sol : SolucionMDVSP
  viajesPendientes : List Nat
deriving DecidableEq

/-- One iteration of `resolver`'s `while viajes_pendientes` loop; `none` when
the loop stops (pending exhausted, or no feasible assignment → `break`). -/
def pasoCS (inst : MDVSPDatos) (e : EstadoCS) : Option EstadoCS :=
  if e.viajesPendientes.isEmpty then none
  else
    match encontrarMejorAsignacion inst e.sol.rutas e.viajesPendientes with
    | none => none
    | some (idViaje, idRuta, costo) =>
      some ⟨asignarViajeARuta inst e.sol idViaje idRuta costo,
            e.viajesPendientes.erase idViaje⟩

/-- Run the loop for at most `fuel` iterations (each iteration removes one
pending trip, so `numeroViajes` iterations always reach the loop's exit). -/
def iterarCS (inst : MDVSPDatos) : Nat → EstadoCS → EstadoCS
  | 0, e => e
  | fuel + 1, e =>
    match pasoCS inst e with
    | none => e
    | some e' => iterarCS inst fuel e'

def estadoInicialCS (inst : MDVSPDatos) : EstadoCS :=
  ⟨inicializarSolucion inst, List.range inst.numeroViajes⟩

/-- `SolucionMDVSP.calcular_metricas`. -/
def calcularMetricas (sol : SolucionMDVSP) (numeroTotalViajes : Nat) : SolucionMDVSP :=
  { sol with
    costoTotal := (sol.rutas.map Ruta.costoTotal).sum
    numeroVehiculosUsados := (sol.rutas.filter fun r => !r.esVacia).length
    esFactible := sol.viajesAsignados.card == numeroTotalViajes }

/-- `ConcurrentScheduleAlgorithm.resolver`, also exposing the trips still
pending when the loop stopped. -/
def resolverFullCS (inst : MDVSPDatos) : SolucionMDVSP × List Nat :=
  let eFin := iterarCS inst inst.numeroViajes (estadoInicialCS inst)
  (calcularMetricas eFin.sol inst.numeroViajes, eFin.viajesPendientes)

def resolverCS (inst : MDVSPDatos) : SolucionMDVSP := (resolverFullCS inst).1

/-! ## Generic list lemmas for the scheduler proofs -/

/-- Inserting an element whose relation to both neighbours holds preserves
`Chain'`. -/
theorem chain'_insertIdx {α : Type} (d : α) {R : α → α → Prop} :
    ∀ (p : Nat) (l : List α) (a : α), p ≤ l.length →
      (p ≠ 0 → R (l.getD (p - 1) d) a) →
      (p ≠ l.length → R a (l.getD p d)) →
      List.Chain' R l → List.Chain' R (l.insertIdx p a) := by
  intro p
  induction p with
  | zero =>
      intro l a _ _ h2 hl
      rw [List.insertIdx_zero]
      rw [List.chain'_cons']
      refine ⟨?_, hl⟩
      intro y hy
      cases l with
      | nil => simp at hy
      | cons z zs =>
          simp only [List.head?_cons, Option.mem_def, Option.some.injEq] at hy
          subst hy
          exact h2 (by simp)
  | succ k ih =>
      intro l a hp h1 h2 hl
      cases l with
      | nil => simp at hp
      | cons x xs =>
          rw [List.insertIdx_succ_cons]
          rw [List.chain'_cons']
          constructor
          · intro y hy
            cases k with
            | zero =>
                rw [List.insertIdx_zero] at hy
                simp only [List.head?_cons, Option.mem_def, Option.some.injEq] at hy
                subst hy
                exact h1 (by simp)
            | succ j =>
                cases xs with
                | nil => simp at hp
                | cons z zs =>
                    rw [List.insertIdx_succ_cons] at hy
                    simp only [List.head?_cons, Option.mem_def, Option.some.injEq] at hy
                    subst hy
                    exact (List.chain'_cons.mp hl).1
          · refine ih xs a (by simpa using hp) ?_ ?_ (List.Chain'.tail hl)
            · intro hk
              have := h1 (by simp)
              have hx : (x :: xs).getD (k + 1 - 1) d = xs.getD (k - 1) d := by
                cases k with
                | zero => exact absurd rfl hk
                | succ j => simp
              rwa [hx] at this
            · intro hk
              have := h2 (by simpa using hk)
              simpa using this

/-- Decompose a list around a written index. -/
theorem list_set_decomp {α : Type} [Inhabited α] (l : List α) (r : Nat)
    (h : r < l.length) (x : α) :
    l = l.take r ++ l.getD r default :: l.drop (r + 1) ∧
    l.set r x = l.take r ++ x :: l.drop (r + 1) := by
  constructor
  · conv_lhs => rw [← List.take_append_drop r l]
    rw [← List.getElem_cons_drop l r h]
    rw [List.getD_eq_getElem?_getD, List.getElem?_eq_getElem h]
    rfl
  · exact List.set_eq_take_cons_drop x h


/-- Soundness predicate for the accumulator of `_encontrar_mejor_asignacion`. -/
def BuenaAsignacion (inst : MDVSPDatos) (rutas : List Ruta) (pend : List Nat)
    (acc : Option (Nat × Nat × Int)) : Prop :=
  ∀ t r c, acc = some (t, r, c) → t ∈ pend ∧ r < rutas.length ∧
    calcularCostoAsignacion inst (rutas.getD r default) (viajeDe inst t) = some c

theorem pasoRutaAsignacion_buena {inst rutas pend} {idViaje : Nat} (hidv : idViaje ∈ pend)
    {b : Option (Nat × Nat × Int)} (hb : BuenaAsignacion inst rutas pend b)
    {idRuta : Nat} (hidr : idRuta < rutas.length) :
    BuenaAsignacion inst rutas pend (pasoRutaAsignacion inst rutas idViaje b idRuta) := by
  intro t' r' c' hres
  unfold pasoRutaAsignacion at hres
  rcases hcalc : calcularCostoAsignacion inst (rutas.getD idRuta default)
      (viajeDe inst idViaje) with _ | costo
  · rw [hcalc] at hres
    exact hb t' r' c' hres
  · rw [hcalc] at hres
    rcases b with _ | mejor
    · simp only [Option.some.injEq, Prod.mk.injEq] at hres
      obtain ⟨rfl, rfl, rfl⟩ := hres
      exact ⟨hidv, hidr, hcalc⟩
    · dsimp only at hres
      split at hres
      · simp only [Option.some.injEq, Prod.mk.injEq] at hres
        obtain ⟨rfl, rfl, rfl⟩ := hres
        exact ⟨hidv, hidr, hcalc⟩
      · exact hb t' r' c' hres

theorem foldl_pasoRutaAsignacion_buena {inst rutas pend} {idViaje : Nat}
    (hidv : idViaje ∈ pend) :
    ∀ (l : List Nat), (∀ x ∈ l, x < rutas.length) →
      ∀ {b : Option (Nat × Nat × Int)}, BuenaAsignacion inst rutas pend b →
      BuenaAsignacion inst rutas pend (l.foldl (pasoRutaAsignacion inst rutas idViaje) b) := by
  intro l
  induction l with
  | nil => intro _ b hb; exact hb
  | cons x xs ih =>
      intro hl b hb
      rw [List.foldl_cons]
      exact ih (fun y hy => hl y (List.mem_cons_of_mem x hy))
        (pasoRutaAsignacion_buena hidv hb (hl x (List.mem_cons_self x xs)))

theorem foldl_pasoViajeAsignacion_buena {inst rutas pend} :
    ∀ (l : List Nat), (∀ x ∈ l, x ∈ pend) →
      ∀ {b : Option (Nat × Nat × Int)}, BuenaAsignacion inst rutas pend b →
      BuenaAsignacion inst rutas pend (l.foldl (pasoViajeAsignacion inst rutas) b) := by
  intro l
  induction l with
  | nil => intro _ b hb; exact hb
  | cons x xs ih =>
      intro hl b hb
      rw [List.foldl_cons]
      refine ih (fun y hy => hl y (List.mem_cons_of_mem x hy)) ?_
      unfold pasoViajeAsignacion
      exact foldl_pasoRutaAsignacion_buena (hl x (List.mem_cons_self x xs)) _
        (fun x hx => List.mem_range.mp hx) hb

/-- The payload of `_encontrar_mejor_asignacion` is always a pending trip, a
real route index, and that route's computed insertion cost. -/
theorem encontrarMejorAsignacion_spec (inst : MDVSPDatos) (rutas : List Ruta)
    (pend : List Nat) {t r : Nat} {c : Int}
    (h : encontrarMejorAsignacion inst rutas pend = some (t, r, c)) :
    t ∈ pend ∧ r < rutas.length ∧
      calcularCostoAsignacion inst (rutas.getD r default) (viajeDe inst t) = some c := by
  unfold encontrarMejorAsignacion at h
  exact foldl_pasoViajeAsignacion_buena pend (fun x hx => hx)
    (fun t' r' c' hx => absurd hx (by simp)) t r c h

/-! ## The re-searched insertion position is window-feasible -/

theorem foldl_pasoMedioInsercion_cases (inst : MDVSPDatos) (ruta : Ruta) (viaje : Viaje) :
    ∀ (l : List Nat) (b : Option Int),
      l.foldl (pasoMedioInsercion inst ruta viaje) b = b ∨
      ∃ i ∈ l, esFactibleTemporalmente inst viaje (ruta.viajes.getD i 0) .despues = true ∧
        esFactibleTemporalmente inst viaje (ruta.viajes.getD (i + 1) 0) .antes = true := by
  intro l
  induction l with
  | nil => intro b; left; rfl
  | cons x xs ih =>
      intro b
      rw [List.foldl_cons]
      unfold pasoMedioInsercion
      split
      · next hgate =>
          right
          exact ⟨x, List.mem_cons_self x xs, hgate.1, hgate.2.1⟩
      · rcases ih b with h | ⟨i, hi, h1, h2⟩
        · left; exact h
        · right; exact ⟨i, List.mem_cons_of_mem x hi, h1, h2⟩

/-- If a route is non-empty and `_calcular_mejor_insercion` returned a cost,
some insertion position passes the window gates of
`_calcular_incremento_costo_posicion`. -/
theorem calcularMejorInsercion_existe_posicion (inst : MDVSPDatos) (ruta : Ruta)
    (viaje : Viaje) {c : Int} (hne : ruta.viajes ≠ [])
    (h : calcularMejorInsercion inst ruta viaje = some c) :
    ∃ p ≤ ruta.viajes.length, calcularIncrementoCostoPosicion inst ruta viaje p ≠ none := by
  have hlen : ruta.viajes.length ≠ 0 := fun h0 => hne (List.length_eq_zero.mp h0)
  unfold calcularMejorInsercion at h
  dsimp only at h
  split at h
  · next hfin =>
      refine ⟨ruta.viajes.length, le_refl _, ?_⟩
      unfold calcularIncrementoCostoPosicion
      rw [if_neg hlen, if_pos rfl, if_neg (not_not_intro hfin.1)]
      simp
  · rcases foldl_pasoMedioInsercion_cases inst ruta viaje
        (List.range (ruta.viajes.length - 1)) _ with heq | ⟨i, hi, h1, h2⟩
    · rw [heq] at h
      split at h
      · next hini =>
          refine ⟨0, Nat.zero_le _, ?_⟩
          unfold calcularIncrementoCostoPosicion
          rw [if_pos rfl, if_neg hlen, if_neg (not_not_intro hini.1)]
          simp
      · exact absurd h (by simp)
    · have hilen : i < ruta.viajes.length - 1 := List.mem_range.mp hi
      refine ⟨i + 1, by omega, ?_⟩
      unfold calcularIncrementoCostoPosicion
      rw [if_neg (by omega), if_neg (by omega),
        if_neg (fun hcon => hcon.elim (fun hA => hA h1) (fun hB => hB h2))]
      simp

/-- Accumulator soundness for `_encontrar_mejor_posicion_insercion`. -/
def BuenaPosicion (inst : MDVSPDatos) (ruta : Ruta) (viaje : Viaje)
    (acc : Nat × Option Int) : Prop :=
  ∀ v, acc.2 = some v →
    calcularIncrementoCostoPosicion inst ruta viaje acc.1 = some v ∧
    acc.1 ≤ ruta.viajes.length

theorem pasoPosicion_cases (inst : MDVSPDatos) (ruta : Ruta) (viaje : Viaje)
    (acc : Nat × Option Int) (x : Nat) :
    pasoPosicion inst ruta viaje acc x = acc ∨
    ∃ inc, calcularIncrementoCostoPosicion inst ruta viaje x = some inc ∧
      pasoPosicion inst ruta viaje acc x = (x, some inc) := by
  obtain ⟨a1, a2⟩ := acc
  unfold pasoPosicion
  rcases hinc : calcularIncrementoCostoPosicion inst ruta viaje x with _ | inc
  · simp [hinc]
  · simp only [hinc]
    rcases a2 with _ | menor
    · right
      exact ⟨inc, rfl, rfl⟩
    · dsimp only
      split
      · right
        exact ⟨inc, rfl, rfl⟩
      · left
        rfl

theorem pasoPosicion_buena {inst ruta viaje} {acc : Nat × Option Int}
    (hb : BuenaPosicion inst ruta viaje acc) {x : Nat} (hx : x ≤ ruta.viajes.length) :
    BuenaPosicion inst ruta viaje (pasoPosicion inst ruta viaje acc x) := by
  rcases pasoPosicion_cases inst ruta viaje acc x with h | ⟨inc, hinc, h⟩
  · rw [h]
    exact hb
  · rw [h]
    intro v hv
    simp only [Option.some.injEq] at hv
    subst hv
    exact ⟨hinc, hx⟩

theorem pasoPosicion_conserva_some {inst ruta viaje} {acc : Nat × Option Int}
    (hacc : acc.2 ≠ none) (x : Nat) :
    (pasoPosicion inst ruta viaje acc x).2 ≠ none := by
  rcases pasoPosicion_cases inst ruta viaje acc x with h | ⟨inc, _, h⟩
  · rw [h]
    exact hacc
  · rw [h]
    simp

theorem pasoPosicion_some_de_hit {inst ruta viaje} (acc : Nat × Option Int) {x : Nat}
    (hx : calcularIncrementoCostoPosicion inst ruta viaje x ≠ none) :
    (pasoPosicion inst ruta viaje acc x).2 ≠ none := by
  obtain ⟨a1, a2⟩ := acc
  unfold pasoPosicion
  rcases hinc : calcularIncrementoCostoPosicion inst ruta viaje x with _ | inc
  · exact absurd hinc hx
  · simp only [hinc]
    rcases a2 with _ | menor
    · simp
    · dsimp only
      split
      · simp
      · simp

theorem foldl_pasoPosicion_buena {inst ruta viaje} :
    ∀ (l : List Nat), (∀ x ∈ l, x ≤ ruta.viajes.length) →
      ∀ {acc : Nat × Option Int}, BuenaPosicion inst ruta viaje acc →
      BuenaPosicion inst ruta viaje (l.foldl (pasoPosicion inst ruta viaje) acc) := by
  intro l
  induction l with
  | nil => intro _ acc hacc; exact hacc
  | cons x xs ih =>
      intro hl acc hacc
      rw [List.foldl_cons]
      exact ih (fun y hy => hl y (List.mem_cons_of_mem x hy))
        (pasoPosicion_buena hacc (hl x (List.mem_cons_self x xs)))

theorem foldl_pasoPosicion_conserva_some {inst ruta viaje} :
    ∀ (l : List Nat) {acc : Nat × Option Int}, acc.2 ≠ none →
      (l.foldl (pasoPosicion inst ruta viaje) acc).2 ≠ none := by
  intro l
  induction l with
  | nil => intro acc hacc; exact hacc
  | cons x xs ih =>
      intro acc hacc
      rw [List.foldl_cons]
      exact ih (pasoPosicion_conserva_some hacc x)

/-- When some position passes the gates, the position that
`_encontrar_mejor_posicion_insercion` returns also passes them (so the
default `0` of an all-infeasible search is never used on commits). -/
theorem encontrarMejorPosicionInsercion_spec (inst : MDVSPDatos) (ruta : Ruta) (viaje : Viaje)
    (hex : ∃ p, p ≤ ruta.viajes.length ∧
      calcularIncrementoCostoPosicion inst ruta viaje p ≠ none) :
    calcularIncrementoCostoPosicion inst ruta viaje
      (encontrarMejorPosicionInsercion inst ruta viaje) ≠ none ∧
    encontrarMejorPosicionInsercion inst ruta viaje ≤ ruta.viajes.length := by
  obtain ⟨p, hple, hpne⟩ := hex
  have hpmem : p ∈ List.range (ruta.viajes.length + 1) := List.mem_range.mpr (by omega)
  obtain ⟨l₁, l₂, hsplit⟩ := List.append_of_mem hpmem
  have hsub : ∀ x ∈ List.range (ruta.viajes.length + 1), x ≤ ruta.viajes.length := by
    intro x hx; have := List.mem_range.mp hx; omega
  have hfinal : BuenaPosicion inst ruta viaje
        ((List.range (ruta.viajes.length + 1)).foldl (pasoPosicion inst ruta viaje) (0, none)) ∧
      ((List.range (ruta.viajes.length + 1)).foldl (pasoPosicion inst ruta viaje)
        (0, none)).2 ≠ none := by
    constructor
    · refine foldl_pasoPosicion_buena _ hsub ?_
      intro v hv
      cases hv
    · rw [hsplit, List.foldl_append, List.foldl_cons]
      exact foldl_pasoPosicion_conserva_some l₂ (pasoPosicion_some_de_hit _ hpne)
  obtain ⟨hbuena, hsome⟩ := hfinal
  rcases hval : ((List.range (ruta.viajes.length + 1)).foldl
      (pasoPosicion inst ruta viaje) (0, none)).2 with _ | v
  · exact absurd hval hsome
  · have := hbuena v hval
    unfold encontrarMejorPosicionInsercion
    refine ⟨fun hcon => ?_, this.2⟩
    rw [this.1] at hcon
    cases hcon

theorem insertIdx_eq_take_drop {α : Type} :
    ∀ (p : Nat) (l : List α) (a : α), p ≤ l.length →
      l.insertIdx p a = l.take p ++ a :: l.drop p := by
  intro p
  induction p with
  | zero => intro l a _; simp
  | succ k ih =>
      intro l a hp
      cases l with
      | nil => simp at hp
      | cons x xs =>
          rw [List.insertIdx_succ_cons, List.take_succ_cons, List.drop_succ_cons,
            List.cons_append, ih xs a (by simpa using hp)]

/-- Splicing at a valid position is a permutation of consing. -/
theorem insertIdx_perm {α : Type} (p : Nat) (l : List α) (a : α) (hp : p ≤ l.length) :
    List.Perm (l.insertIdx p a) (a :: l) := by
  rw [insertIdx_eq_take_drop p l a hp]
  have h1 : List.Perm (l.take p ++ a :: l.drop p) (a :: (l.take p ++ l.drop p)) :=
    List.perm_middle
  rwa [List.take_append_drop] at h1

/-- The window gates that a non-`None` increment position satisfies. -/
theorem calcularIncrementoCostoPosicion_gates (inst : MDVSPDatos) (ruta : Ruta)
    (viaje : Viaje) {p : Nat} (hne : ruta.viajes ≠ []) (hple : p ≤ ruta.viajes.length)
    (hsome : calcularIncrementoCostoPosicion inst ruta viaje p ≠ none) :
    (p ≠ 0 → (viajeDe inst (ruta.viajes.getD (p - 1) 0)).fin ≤ viaje.inicio) ∧
    (p ≠ ruta.viajes.length → viaje.fin ≤ (viajeDe inst (ruta.viajes.getD p 0)).inicio) := by
  have hlen : ruta.viajes.length ≠ 0 := fun h0 => hne (List.length_eq_zero.mp h0)
  unfold calcularIncrementoCostoPosicion at hsome
  by_cases hp0 : p = 0
  · subst hp0
    rw [if_pos rfl, if_neg hlen] at hsome
    refine ⟨fun h => absurd rfl h, fun _ => ?_⟩
    by_cases hg : esFactibleTemporalmente inst viaje (ruta.viajes.getD 0 0) .antes = true
    · unfold esFactibleTemporalmente at hg
      simpa using of_decide_eq_true hg
    · rw [if_pos hg] at hsome
      exact absurd rfl hsome
  · rw [if_neg hp0] at hsome
    by_cases hpl : p = ruta.viajes.length
    · rw [if_pos hpl] at hsome
      refine ⟨fun _ => ?_, fun h => absurd hpl h⟩
      by_cases hg : esFactibleTemporalmente inst viaje
          (ruta.viajes.getD (ruta.viajes.length - 1) 0) .despues = true
      · unfold esFactibleTemporalmente at hg
        rw [hpl]
        simpa using of_decide_eq_true hg
      · rw [if_pos hg] at hsome
        exact absurd rfl hsome
    · rw [if_neg hpl] at hsome
      by_cases hg1 : esFactibleTemporalmente inst viaje
          (ruta.viajes.getD (p - 1) 0) .despues = true
      · by_cases hg2 : esFactibleTemporalmente inst viaje
            (ruta.viajes.getD p 0) .antes = true
        · unfold esFactibleTemporalmente at hg1 hg2
          refine ⟨fun _ => by simpa using of_decide_eq_true hg1,
            fun _ => by simpa using of_decide_eq_true hg2⟩
        · rw [if_pos (Or.inr hg2)] at hsome
          exact absurd rfl hsome
      · rw [if_pos (Or.inl hg1)] at hsome
        exact absurd rfl hsome

/-- What a commit does to the solution: the trip is spliced into the chosen
route at a window-feasible valid position, and marked assigned. -/
theorem asignarViajeARuta_decomp (inst : MDVSPDatos) (sol : SolucionMDVSP)
    (idViaje idRuta : Nat) (c : Int)
    (hcalc : calcularCostoAsignacion inst (sol.rutas.getD idRuta default)
      (viajeDe inst idViaje) = some c) :
    ∃ (pos : Nat) (rutaNueva : Ruta),
      pos ≤ (sol.rutas.getD idRuta default).viajes.length ∧
      rutaNueva.viajes = (sol.rutas.getD idRuta default).viajes.insertIdx pos idViaje ∧
      (pos ≠ 0 → (viajeDe inst ((sol.rutas.getD idRuta default).viajes.getD (pos - 1) 0)).fin ≤
        (viajeDe inst idViaje).inicio) ∧
      (pos ≠ (sol.rutas.getD idRuta default).viajes.length →
        (viajeDe inst idViaje).fin ≤
        (viajeDe inst ((sol.rutas.getD idRuta default).viajes.getD pos 0)).inicio) ∧
      asignarViajeARuta inst sol idViaje idRuta c =
        { sol with rutas := sol.rutas.set idRuta rutaNueva,
                   viajesAsignados := insert idViaje sol.viajesAsignados } := by
  by_cases hv : (sol.rutas.getD idRuta default).esVacia
  · have hnil : (sol.rutas.getD idRuta default).viajes = [] := by
      have := hv
      unfold Ruta.esVacia at this
      exact List.isEmpty_iff.mp this
    refine ⟨0, (sol.rutas.getD idRuta default).agregarViaje idViaje c
      (viajeDe inst idViaje).inicio (viajeDe inst idViaje).fin, by simp [hnil], ?_, ?_, ?_, ?_⟩
    · unfold Ruta.agregarViaje
      rw [hnil]
      simp
    · intro h; exact absurd rfl h
    · intro h; rw [hnil] at h; exact absurd rfl h
    · simp only [asignarViajeARuta]
      rw [if_pos hv]
  · have hne : (sol.rutas.getD idRuta default).viajes ≠ [] := by
      intro h0
      unfold Ruta.esVacia at hv
      rw [h0] at hv
      exact hv rfl
    have hmej : calcularMejorInsercion inst (sol.rutas.getD idRuta default)
        (viajeDe inst idViaje) = some c := by
      unfold calcularCostoAsignacion at hcalc
      rwa [if_neg hv] at hcalc
    have hex := calcularMejorInsercion_existe_posicion inst _ _ hne hmej
    have hspec := encontrarMejorPosicionInsercion_spec inst (sol.rutas.getD idRuta default)
      (viajeDe inst idViaje) hex
    have hgates := calcularIncrementoCostoPosicion_gates inst _ _ hne hspec.2 hspec.1
    refine ⟨encontrarMejorPosicionInsercion inst (sol.rutas.getD idRuta default)
      (viajeDe inst idViaje),
      { sol.rutas.getD idRuta default with
        viajes := (sol.rutas.getD idRuta default).viajes.insertIdx
          (encontrarMejorPosicionInsercion inst (sol.rutas.getD idRuta default)
            (viajeDe inst idViaje)) idViaje
        costoTotal := (sol.rutas.getD idRuta default).costoTotal + c
        tiempoInicio := some (match (sol.rutas.getD idRuta default).tiempoInicio with
          | none => (viajeDe inst idViaje).inicio
          | some t => min t (viajeDe inst idViaje).inicio)
        tiempoFin := some (match (sol.rutas.getD idRuta default).tiempoFin with
          | none => (viajeDe inst idViaje).fin
          | some t => max t (viajeDe inst idViaje).fin) },
      hspec.2, rfl, hgates.1, hgates.2, ?_⟩
    simp only [asignarViajeARuta]
    rw [if_neg hv]

theorem getD_mem_de_lt {α : Type} [Inhabited α] {l : List α} {i : Nat} (h : i < l.length) :
    l.getD i default ∈ l := by
  rw [List.getD_eq_getElem?_getD, List.getElem?_eq_getElem h]
  exact List.getElem_mem h

/-! ## The run invariant of the MDVSP scheduler -/

/-- Arc order used by the route-chain invariant: trip `a` ends early enough to
start trip `b` (window precedence, as the scheduler's gate checks it). -/
def ordenTemporal (inst : MDVSPDatos) (a b : Nat) : Prop :=
  (viajeDe inst a).fin ≤ (viajeDe inst b).inicio

/-- Everything the scheduling loop preserves: pending-set bookkeeping,
task conservation across routes, and per-route window chains. -/
def InvCS (inst : MDVSPDatos) (e : EstadoCS) : Prop :=
  e.viajesPendientes.Nodup ∧
  (∀ t ∈ e.viajesPendientes, t ∉ e.sol.viajesAsignados) ∧
  e.sol.viajesAsignados.card + e.viajesPendientes.length = inst.numeroViajes ∧
  (∀ r ∈ e.sol.rutas, r.viajes.Nodup) ∧
  e.sol.rutas.Pairwise (fun r s => ∀ v ∈ r.viajes, v ∉ s.viajes) ∧
  (∀ r ∈ e.sol.rutas, ∀ v ∈ r.viajes, v ∈ e.sol.viajesAsignados) ∧
  (e.sol.rutas.map fun r => r.viajes.length).sum = e.sol.viajesAsignados.card ∧
  (∀ r ∈ e.sol.rutas, List.Chain' (ordenTemporal inst) r.viajes)

theorem pasoCS_spec {inst : MDVSPDatos} {e e' : EstadoCS} (h : pasoCS inst e = some e') :
    ∃ t r c, encontrarMejorAsignacion inst e.sol.rutas e.viajesPendientes = some (t, r, c) ∧
      e' = ⟨asignarViajeARuta inst e.sol t r c, e.viajesPendientes.erase t⟩ := by
  unfold pasoCS at h
  split at h
  · cases h
  · rcases hfind : encontrarMejorAsignacion inst e.sol.rutas e.viajesPendientes
        with _ | ⟨t, r, c⟩
    · rw [hfind] at h
      cases h
    · rw [hfind] at h
      simp only [Option.some.injEq] at h
      exact ⟨t, r, c, rfl, h.symm⟩

theorem invCS_paso {inst : MDVSPDatos} {e e' : EstadoCS}
    (hinv : InvCS inst e) (h : pasoCS inst e = some e') : InvCS inst e' := by
  obtain ⟨t, r, c, hfind, rfl⟩ := pasoCS_spec h
  obtain ⟨hnodupP, hfresco, hcard, hnodupR, hdisj, hsub, hsum, hcadena⟩ := hinv
  obtain ⟨htP, hrlen, hcalc⟩ := encontrarMejorAsignacion_spec inst _ _ hfind
  obtain ⟨pos, rutaNueva, hple, hrn, hg1, hg2, heq⟩ :=
    asignarViajeARuta_decomp inst e.sol t r c hcalc
  have hperm := insertIdx_perm pos (e.sol.rutas.getD r default).viajes t hple
  have htnoasig : t ∉ e.sol.viajesAsignados := hfresco t htP
  have htnoruta : ∀ ru ∈ e.sol.rutas, t ∉ ru.viajes := by
    intro ru hru hmem
    exact htnoasig (hsub ru hru t hmem)
  obtain ⟨hdec1, hdec2⟩ := list_set_decomp e.sol.rutas r hrlen rutaNueva
  have hgetmem : e.sol.rutas.getD r default ∈ e.sol.rutas := getD_mem_de_lt hrlen
  have hmemiff : ∀ v, v ∈ rutaNueva.viajes ↔
      v = t ∨ v ∈ (e.sol.rutas.getD r default).viajes := by
    intro v
    rw [hrn]
    exact ⟨fun hv => List.mem_cons.mp (hperm.mem_iff.mp hv),
      fun hv => hperm.mem_iff.mpr (List.mem_cons.mpr hv)⟩
  rw [heq]
  refine ⟨hnodupP.erase t, ?_, ?_, ?_, ?_, ?_, ?_, ?_⟩
  · intro u hu
    have hu' := List.mem_of_mem_erase hu
    have hune : u ≠ t := ((List.Nodup.mem_erase_iff hnodupP).mp hu).1
    simp only [Finset.mem_insert]
    push_neg
    exact ⟨hune, hfresco u hu'⟩
  · simp only [Finset.card_insert_of_not_mem htnoasig,
      List.length_erase_of_mem htP]
    have : e.viajesPendientes.length ≠ 0 := by
      intro h0
      rw [List.length_eq_zero.mp h0] at htP
      cases htP
    omega
  · intro ru hru
    rw [hdec2] at hru
    rcases List.mem_append.mp hru with hmem | hmem
    · exact hnodupR ru (by rw [hdec1]; exact List.mem_append.mpr (Or.inl hmem))
    · rcases List.mem_cons.mp hmem with rfl | hmem'
      · rw [(List.Perm.nodup_iff (hrn ▸ hperm))]
        exact List.nodup_cons.mpr ⟨htnoruta _ hgetmem, hnodupR _ hgetmem⟩
      · refine hnodupR ru (by rw [hdec1]; exact List.mem_append.mpr (Or.inr (List.mem_cons_of_mem _ hmem')))
  · have hdisj0 := hdisj
    rw [hdec1, List.pairwise_append, List.pairwise_cons] at hdisj0
    obtain ⟨hp1, ⟨hpold, hp2⟩, hpcross⟩ := hdisj0
    rw [hdec2, List.pairwise_append, List.pairwise_cons]
    have hl1mem : ∀ a ∈ e.sol.rutas.take r, a ∈ e.sol.rutas := by
      intro a ha; exact List.mem_of_mem_take ha
    have hl2mem : ∀ a ∈ e.sol.rutas.drop (r + 1), a ∈ e.sol.rutas := by
      intro a ha; exact List.mem_of_mem_drop ha
    refine ⟨hp1, ⟨?_, hp2⟩, ?_⟩
    · intro b hb v hv
      rcases (hmemiff v).mp hv with rfl | hv'
      · exact htnoruta b (hl2mem b hb)
      · exact hpold b hb v hv'
    · intro a ha b hb
      rcases List.mem_cons.mp hb with rfl | hb'
      · intro v hv hvb
        rcases (hmemiff v).mp hvb with rfl | hv'
        · exact htnoruta a (hl1mem a ha) hv
        · exact hpcross a ha _ (List.mem_cons_self _ _) v hv hv'
      · exact hpcross a ha b (List.mem_cons_of_mem _ hb')
  · intro ru hru v hv
    rw [hdec2] at hru
    simp only [Finset.mem_insert]
    rcases List.mem_append.mp hru with hmem | hmem
    · exact Or.inr (hsub ru (by rw [hdec1]; exact List.mem_append.mpr (Or.inl hmem)) v hv)
    · rcases List.mem_cons.mp hmem with rfl | hmem'
      · rcases (hmemiff v).mp hv with rfl | hv'
        · exact Or.inl rfl
        · exact Or.inr (hsub _ hgetmem v hv')
      · exact Or.inr (hsub ru
          (by rw [hdec1]; exact List.mem_append.mpr (Or.inr (List.mem_cons_of_mem _ hmem'))) v hv)
  · have hlenN : rutaNueva.viajes.length = (e.sol.rutas.getD r default).viajes.length + 1 := by
      rw [hrn, (insertIdx_perm pos _ t hple).length_eq]
      rfl
    have hsum0 := hsum
    rw [hdec1] at hsum0
    rw [hdec2]
    simp only [List.map_append, List.map_cons, List.sum_append, List.sum_cons] at hsum0 ⊢
    rw [Finset.card_insert_of_not_mem htnoasig, hlenN]
    omega
  · intro ru hru
    rw [hdec2] at hru
    rcases List.mem_append.mp hru with hmem | hmem
    · exact hcadena ru (by rw [hdec1]; exact List.mem_append.mpr (Or.inl hmem))
    · rcases List.mem_cons.mp hmem with rfl | hmem'
      · rw [hrn]
        exact chain'_insertIdx 0 pos _ t hple hg1 hg2 (hcadena _ hgetmem)
      · exact hcadena ru
          (by rw [hdec1]; exact List.mem_append.mpr (Or.inr (List.mem_cons_of_mem _ hmem')))

theorem inicializarSolucion_rutas_vacias (inst : MDVSPDatos) :
    ∀ r ∈ (inicializarSolucion inst).rutas, r.viajes = [] := by
  unfold inicializarSolucion
  dsimp only
  have gen : ∀ (deps : List Deposito) (acc : List Ruta × Nat),
      (∀ r ∈ acc.1, r.viajes = []) →
      ∀ r ∈ (deps.foldl (fun (acc : List Ruta × Nat) dep =>
        (acc.1 ++ (List.range dep.numeroVehiculos).map fun k =>
          { idVehiculo := acc.2 + k, idDeposito := dep.idDeposito, viajes := [],
            costoTotal := 0, tiempoInicio := none, tiempoFin := none },
         acc.2 + dep.numeroVehiculos)) acc).1, r.viajes = [] := by
    intro deps
    induction deps with
    | nil => intro acc hacc; exact hacc
    | cons dep resto ih =>
        intro acc hacc
        rw [List.foldl_cons]
        refine ih _ ?_
        intro r hr
        rcases List.mem_append.mp hr with hr' | hr'
        · exact hacc r hr'
        · obtain ⟨k, _, rfl⟩ := List.mem_map.mp hr'
          rfl
  exact gen inst.depositos ([], 0) (by intro r hr; cases hr)

theorem pairwise_de_vacias (R : Ruta → Ruta → Prop)
    (hR : ∀ r s, r.viajes = [] → R r s) :
    ∀ (l : List Ruta), (∀ r ∈ l, r.viajes = []) → l.Pairwise R := by
  intro l
  induction l with
  | nil => intro _; exact List.Pairwise.nil
  | cons x xs ih =>
      intro h
      refine List.Pairwise.cons ?_ (ih fun r hr => h r (List.mem_cons_of_mem x hr))
      intro s _
      exact hR x s (h x (List.mem_cons_self x xs))

/-- The initial scheduling state satisfies the run invariant. -/
theorem invCS_inicial (inst : MDVSPDatos) : InvCS inst (estadoInicialCS inst) := by
  have hvac := inicializarSolucion_rutas_vacias inst
  refine ⟨?_, ?_, ?_, ?_, ?_, ?_, ?_, ?_⟩
  · exact List.nodup_range inst.numeroViajes
  · intro t _
    simp [estadoInicialCS, inicializarSolucion]
  · simp [estadoInicialCS, inicializarSolucion]
  · intro r hr
    rw [hvac r hr]
    exact List.nodup_nil
  · exact pairwise_de_vacias _ (fun r s hr => by intro v hv; rw [hr] at hv; cases hv) _ hvac
  · intro r hr v hv
    rw [hvac r hr] at hv
    cases hv
  · have : ∀ x ∈ ((estadoInicialCS inst).sol.rutas.map fun r => r.viajes.length), x = 0 := by
      intro x hx
      obtain ⟨r, hr, rfl⟩ := List.mem_map.mp hx
      rw [hvac r hr]
      rfl
    rw [List.sum_eq_zero this]
    simp [estadoInicialCS, inicializarSolucion]
  · intro r hr
    rw [hvac r hr]
    exact List.chain'_nil

theorem invCS_iterar (inst : MDVSPDatos) :
    ∀ (fuel : Nat) (e : EstadoCS), InvCS inst e → InvCS inst (iterarCS inst fuel e) := by
  intro fuel
  induction fuel with
  | zero => intro e he; exact he
  | succ k ih =>
      intro e he
      unfold iterarCS
      rcases hp : pasoCS inst e with _ | e'
      · exact he
      · exact ih e' (invCS_paso he hp)

theorem pasoCS_longitud {inst : MDVSPDatos} {e e' : EstadoCS}
    (h : pasoCS inst e = some e') :
    e'.viajesPendientes.length + 1 = e.viajesPendientes.length := by
  obtain ⟨t, r, c, hfind, rfl⟩ := pasoCS_spec h
  obtain ⟨htP, _, _⟩ := encontrarMejorAsignacion_spec inst _ _ hfind
  dsimp only
  rw [List.length_erase_of_mem htP]
  have : e.viajesPendientes.length ≠ 0 := by
    intro h0
    rw [List.length_eq_zero.mp h0] at htP
    cases htP
  omega

/-- With fuel at least the number of pending trips, the loop reaches its exit
condition: the returned state allows no further step. -/
theorem iterarCS_terminal (inst : MDVSPDatos) :
    ∀ (fuel : Nat) (e : EstadoCS), e.viajesPendientes.length ≤ fuel →
      pasoCS inst (iterarCS inst fuel e) = none := by
  intro fuel
  induction fuel with
  | zero =>
      intro e he
      have : e.viajesPendientes = [] :=
        List.length_eq_zero.mp (Nat.le_zero.mp he)
      unfold iterarCS pasoCS
      rw [this]
      rfl
  | succ k ih =>
      intro e he
      unfold iterarCS
      rcases hp : pasoCS inst e with _ | e'
      · exact hp
      · refine ih e' ?_
        have := pasoCS_longitud hp
        omega

theorem pasoCS_none_cases {inst : MDVSPDatos} {e : EstadoCS} (h : pasoCS inst e = none) :
    e.viajesPendientes = [] ∨
    encontrarMejorAsignacion inst e.sol.rutas e.viajesPendientes = none := by
  unfold pasoCS at h
  split at h
  · next hemp => exact Or.inl (List.isEmpty_iff.mp hemp)
  · rcases hfind : encontrarMejorAsignacion inst e.sol.rutas e.viajesPendientes
        with _ | x
    · exact Or.inr rfl
    · rw [hfind] at h
      cases h

/-- A 1-depot, 1-vehicle MDVSP instance (trips first, depot = node 2): trips
`[0,10]` and `[11,20]`, arc `0→1` at the sentinel, finite depot legs. -/
def instanciaC3 : MDVSPDatos :=
  ⟨2, [⟨0, 1⟩], [⟨0, 0, 10⟩, ⟨1, 11, 20⟩],
    [[0, 100000000, 2], [100000000, 0, 10], [3, 50, 0]]⟩

/-- C3 counterexample: the greedy MDVSP scheduler commits trip 1 after trip 0
even though the arc-cost entry `cost(0,1)` is the sentinel, so the claimed
invariant `end_time(a) + cost(a,b) ≤ start_time(b)` is false for the adjacent
pair of the returned route: its gate checks only window disjointness, and the
candidate is kept because the delta `1e8 + 10 - 2` differs from the sentinel. -/
theorem c3_contraejemplo :
    ((resolverCS instanciaC3).rutas.getD 0 default).viajes = [0, 1] ∧
    obtenerCosto instanciaC3 0 1 = INFACTIBLE ∧
    (viajeDe instanciaC3 0).fin + obtenerCosto instanciaC3 0 1 >
      (viajeDe instanciaC3 1).inicio := by
  decide

/-- C3 amended: after every committed insertion — at every iteration count
`k`, and in the final returned solution — every route's task sequence is
chained by pure window precedence, `end_time(a) ≤ start_time(b)` for every
adjacent pair; the travel-time-aware inequality of the original claim is what
fails (see the counterexample). -/
theorem c3_enmendada (inst : MDVSPDatos) (k idx : Nat) :
    List.Chain' (ordenTemporal inst)
      (((iterarCS inst k (estadoInicialCS inst)).sol.rutas.getD idx default).viajes) ∧
    List.Chain' (ordenTemporal inst) (((resolverCS inst).rutas.getD idx default).viajes) := by
  have cadena : ∀ (j : Nat),
      List.Chain' (ordenTemporal inst)
        (((iterarCS inst j (estadoInicialCS inst)).sol.rutas.getD idx default).viajes) := by
    intro j
    have hinv := invCS_iterar inst j (estadoInicialCS inst) (invCS_inicial inst)
    by_cases hidx : idx < (iterarCS inst j (estadoInicialCS inst)).sol.rutas.length
    · exact hinv.2.2.2.2.2.2.2 _ (getD_mem_de_lt hidx)
    · rw [List.getD_eq_default _ _ (Nat.le_of_not_lt hidx)]
      exact List.chain'_nil
  refine ⟨cadena k, ?_⟩
  have : (resolverCS inst).rutas =
      (iterarCS inst inst.numeroViajes (estadoInicialCS inst)).sol.rutas := by
    simp [resolverCS, resolverFullCS, calcularMetricas]
  rw [this]
  exact cadena inst.numeroViajes

/-- C4: the MDVSP scheduler is total.  The run always reaches the loop's exit
condition (pending exhausted, or no feasible pairing — never an exception);
the returned feasibility flag is true exactly when no trip is left pending;
and every trip left pending is absent from the assigned set. -/
theorem c4_mdvsp_sin_error (inst : MDVSPDatos) :
    ((resolverFullCS inst).2 = [] ∨
      encontrarMejorAsignacion inst (resolverCS inst).rutas (resolverFullCS inst).2 = none) ∧
    ((resolverCS inst).esFactible = true ↔ (resolverFullCS inst).2 = []) ∧
    (∀ t ∈ (resolverFullCS inst).2, t ∉ (resolverCS inst).viajesAsignados) := by
  have hterm := iterarCS_terminal inst inst.numeroViajes (estadoInicialCS inst)
    (by simp [estadoInicialCS])
  have hcases := pasoCS_none_cases hterm
  have hinv := invCS_iterar inst inst.numeroViajes (estadoInicialCS inst) (invCS_inicial inst)
  have hpend : (resolverFullCS inst).2 =
      (iterarCS inst inst.numeroViajes (estadoInicialCS inst)).viajesPendientes := by
    simp [resolverFullCS]
  have hrutas : (resolverCS inst).rutas =
      (iterarCS inst inst.numeroViajes (estadoInicialCS inst)).sol.rutas := by
    simp [resolverCS, resolverFullCS, calcularMetricas]
  have hasig : (resolverCS inst).viajesAsignados =
      (iterarCS inst inst.numeroViajes (estadoInicialCS inst)).sol.viajesAsignados := by
    simp [resolverCS, resolverFullCS, calcularMetricas]
  have hfact : (resolverCS inst).esFactible =
      ((iterarCS inst inst.numeroViajes (estadoInicialCS inst)).sol.viajesAsignados.card ==
        inst.numeroViajes) := by
    simp [resolverCS, resolverFullCS, calcularMetricas]
  refine ⟨?_, ?_, ?_⟩
  · rw [hpend, hrutas]
    exact hcases
  · rw [hfact, hpend]
    have hcard := hinv.2.2.1
    constructor
    · intro h
      have : (iterarCS inst inst.numeroViajes (estadoInicialCS inst)).sol.viajesAsignados.card =
          inst.numeroViajes := by simpa using h
      rw [← List.length_eq_zero]
      omega
    · intro h
      have : (iterarCS inst inst.numeroViajes (estadoInicialCS inst)).viajesPendientes.length = 0 := by
        rw [h]; rfl
      have : (iterarCS inst inst.numeroViajes (estadoInicialCS inst)).sol.viajesAsignados.card =
          inst.numeroViajes := by omega
      simpa using this
  · rw [hpend, hasig]
    exact hinv.2.1

/-- A single trip that no depot can reach. -/
def instanciaC4 : MDVSPDatos :=
  ⟨1, [⟨0, 1⟩], [⟨0, 0, 10⟩], [[0, 5], [100000000, 0]]⟩

/-- C4 witness: on the unreachable-trip instance the stranded trip stays
pending and is absent from the assigned set. -/
theorem c4_testigo :
    0 ∈ (resolverFullCS instanciaC4).2 ∧
    0 ∉ (resolverCS instanciaC4).viajesAsignados ∧
    (resolverCS instanciaC4).esFactible = false :=
  ⟨by decide, (c4_mdvsp_sin_error instanciaC4).2.2 0 (by decide), by decide⟩

/-! ## VSP data accessors (`VSPData`) -/

/-- `VSPData.es_conexion_factible` (index bounds are the callers' duty). -/
def esConexionFactible (d : VSPDatos) (origen destino : Nat) : Bool :=
  if origen = destino then false
  else
    let costo := mget d.matrizCostos origen destino
    if costo = INFACTIBLE ∨ costo = PROHIBIDO then false
    else
      puedePrecederA (d.servicios.getD origen default) (d.servicios.getD destino default) &&
        !seTraslapaCon (d.servicios.getD origen default) (d.servicios.getD destino default)

/-- `VSPData.obtener_costo_conexion`. -/
def obtenerCostoConexion (d : VSPDatos) (origen destino : Nat) : Int :=
  if esConexionFactible d origen destino then mget d.matrizCostos origen destino
  else INFACTIBLE

/-- `VSPData.obtener_costo_desde_deposito` (depot row is index `n`). -/
def obtenerCostoDesdeDeposito (d : VSPDatos) (s : Nat) : Int :=
  mget d.matrizCostos d.numeroServicios s

/-- `VSPData.obtener_costo_hacia_deposito`. -/
def obtenerCostoHaciaDeposito (d : VSPDatos) (s : Nat) : Int :=
  mget d.matrizCostos s d.numeroServicios

/-- `VSPData._aplicar_restricciones_conexion`, one cell of the double loop. -/
def aplicarRestriccionPaso (m : Mat) (ij : Nat × Nat) : Mat :=
  if mget m ij.1 ij.2 = PROHIBIDO ∨ mget m ij.1 ij.2 ≥ INFACTIBLE then
    mset (mset m ij.1 ij.2 INFACTIBLE) ij.2 ij.1 INFACTIBLE
  else m

/-- `VSPData._aplicar_restricciones_conexion`, run by `__post_init__`. -/
def aplicarRestriccionesConexion (m : Mat) : Mat :=
  (indicesMatriz m.length).foldl aplicarRestriccionPaso m

/-! ## VSP solution model (`vsp_solution_model`) -/

structure RutaVSP where
  idVehiculo : Nat
  servicios : List Nat
  costoTotal : Int
  tiempoInicioRuta : Option Int
  tiempoFinRuta : Option Int
deriving DecidableEq, Repr

instance : Inhabited RutaVSP := ⟨⟨0, [], 0, none, none⟩⟩

def RutaVSP.esVacia (r : RutaVSP) : Bool := r.servicios.isEmpty

/-- `RutaVSP.agregar_servicio`. -/
def RutaVSP.agregarServicio (r : RutaVSP) (idServicio : Nat) (costoAdicional : Int)
    (tiempoInicioServicio tiempoFinServicio : Int) : RutaVSP :=
  { r with
    servicios := r.servicios ++ [idServicio]
    costoTotal := r.costoTotal + costoAdicional
    tiempoInicioRuta := some (match r.tiempoInicioRuta with
      | none => tiempoInicioServicio
      | some t => min t tiempoInicioServicio)
    tiempoFinRuta := some (match r.tiempoFinRuta with
      | none => tiempoFinServicio
      | some t => max t tiempoFinServicio) }

/-- `RutaVSP.insertar_servicio`. -/
def RutaVSP.insertarServicio (r : RutaVSP) (posicion idServicio : Nat)
    (incrementoCosto : Int) (tiempoInicioServicio tiempoFinServicio : Int) : RutaVSP :=
  { r with
    servicios := r.servicios.insertIdx posicion idServicio
    costoTotal := r.costoTotal + incrementoCosto
    tiempoInicioRuta := some (match r.tiempoInicioRuta with
      | none => tiempoInicioServicio
      | some t => min t tiempoInicioServicio)
    tiempoFinRuta := some (match r.tiempoFinRuta with
      | none => tiempoFinServicio
      | some t => max t tiempoFinServicio) }

structure SolucionVSP where
  rutas : List RutaVSP
  serviciosAsignados : Finset Nat
  costoTotal : Int
  numeroVehiculosUsados : Nat
  esFactible : Bool
  numeroServiciosTotal : Nat
  makespan : Int
deriving DecidableEq

/-- `SolucionVSP._calcular_makespan`. -/
def calcularMakespan (sol : SolucionVSP) : Int :=
  let activas := sol.rutas.filter fun r =>
    !r.esVacia && r.tiempoInicioRuta.isSome && r.tiempoFinRuta.isSome
  let iniciosRuta := activas.filterMap RutaVSP.tiempoInicioRuta
  let finesRuta := activas.filterMap RutaVSP.tiempoFinRuta
  match finesRuta.max?, iniciosRuta.min? with
  | some tMax, some tMin => tMax - tMin
  | _, _ => 0

/-- `SolucionVSP.calcular_metricas`. -/
def calcularMetricasVSP (sol : SolucionVSP) (numeroServiciosInstancia : Nat) : SolucionVSP :=
  { sol with
    numeroServiciosTotal := numeroServiciosInstancia
    costoTotal := (sol.rutas.map RutaVSP.costoTotal).sum
    numeroVehiculosUsados := (sol.rutas.filter fun r => !r.esVacia).length
    esFactible := sol.serviciosAsignados.card == numeroServiciosInstancia
    makespan := calcularMakespan sol }

/-! ## The VSP constructive algorithm (`VSPConstructiveAlgorithm`) -/

/-- `_calcular_costo_insercion_final` (also the empty-route case). -/
def calcularCostoInsercionFinal (d : VSPDatos) (ruta : RutaVSP) (idServicio : Nat) :
    Option Int :=
  if ruta.esVacia then
    let costoIda := obtenerCostoDesdeDeposito d idServicio
    let costoVuelta := obtenerCostoHaciaDeposito d idServicio
    if costoIda ≥ INFACTIBLE ∨ costoVuelta ≥ INFACTIBLE then none
    else some (costoIda + costoVuelta)
  else
    let ultimoServicio := ruta.servicios.getD (ruta.servicios.length - 1) 0
    let costoOriginal := obtenerCostoHaciaDeposito d ultimoServicio
    let costoConexion := obtenerCostoConexion d ultimoServicio idServicio
    let costoRegreso := obtenerCostoHaciaDeposito d idServicio
    if costoConexion ≥ INFACTIBLE ∨ costoRegreso ≥ INFACTIBLE ∨ costoOriginal ≥ INFACTIBLE
    then none
    else some (costoConexion + costoRegreso - costoOriginal)

/-- `_calcular_costo_insercion_inicio`. -/
def calcularCostoInsercionInicio (d : VSPDatos) (ruta : RutaVSP) (idServicio : Nat) :
    Option Int :=
  let primerServicio := ruta.servicios.getD 0 0
  let costoOriginal := obtenerCostoDesdeDeposito d primerServicio
  let costoIda := obtenerCostoDesdeDeposito d idServicio
  let costoConexion := obtenerCostoConexion d idServicio primerServicio
  if costoIda ≥ INFACTIBLE ∨ costoConexion ≥ INFACTIBLE ∨ costoOriginal ≥ INFACTIBLE
  then none
  else some (costoIda + costoConexion - costoOriginal)

/-- `_calcular_costo_insercion_medio`. -/
def calcularCostoInsercionMedio (d : VSPDatos) (ruta : RutaVSP)
    (idServicio posicion : Nat) : Option Int :=
  let servicioAnterior := ruta.servicios.getD (posicion - 1) 0
  let servicioSiguiente := ruta.servicios.getD posicion 0
  let costoOriginal := obtenerCostoConexion d servicioAnterior servicioSiguiente
  let costoEntrada := obtenerCostoConexion d servicioAnterior idServicio
  let costoSalida := obtenerCostoConexion d idServicio servicioSiguiente
  if costoEntrada ≥ INFACTIBLE ∨ costoSalida ≥ INFACTIBLE ∨ costoOriginal ≥ INFACTIBLE
  then none
  else some (costoEntrada + costoSalida - costoOriginal)

/-- `_calcular_costo_insercion` (the `pos = len` test precedes the `pos = 0`
test, so an empty route lands in the empty branch of the final case). -/
def calcularCostoInsercion (d : VSPDatos) (ruta : RutaVSP)
    (idServicio posicion : Nat) : Option Int :=
  if posicion > ruta.servicios.length then none
  else if posicion = ruta.servicios.length then
    calcularCostoInsercionFinal d ruta idServicio
  else if posicion = 0 then calcularCostoInsercionInicio d ruta idServicio
  else calcularCostoInsercionMedio d ruta idServicio posicion

/-- `_es_insercion_factible`: both neighbour connections must be feasible. -/
def esInsercionFactible (d : VSPDatos) (ruta : RutaVSP)
    (idServicio posicion : Nat) : Bool :=
  (if 0 < posicion then esConexionFactible d (ruta.servicios.getD (posicion - 1) 0) idServicio
   else true) &&
  (if posicion < ruta.servicios.length then
     esConexionFactible d idServicio (ruta.servicios.getD posicion 0)
   else true)

/-- Loop body of `_evaluar_insercion_en_ruta` (the feasibility test sits
inside the improvement test, as in the source). -/
def pasoEvaluarPosicion (d : VSPDatos) (ruta : RutaVSP) (idServicio : Nat)
    (acc : Option (Nat × Int)) (posicion : Nat) : Option (Nat × Int) :=
  match calcularCostoInsercion d ruta idServicio posicion with
  | none => acc
  | some costoIncremental =>
    if (match acc with | none => true | some mejor => decide (costoIncremental < mejor.2)) then
      if esInsercionFactible d ruta idServicio posicion then some (posicion, costoIncremental)
      else acc
    else acc

/-- `_evaluar_insercion_en_ruta`. -/
def evaluarInsercionEnRuta (d : VSPDatos) (ruta : RutaVSP) (idServicio : Nat) :
    Option (Nat × Int) :=
  (List.range (ruta.servicios.length + 1)).foldl (pasoEvaluarPosicion d ruta idServicio) none

/-- Loop body of `_encontrar_mejor_asignacion` (empty routes are skipped). -/
def pasoRutaVSP (d : VSPDatos) (rutas : List RutaVSP) (idServicio : Nat)
    (acc : Option (Nat × Nat × Int)) (i : Nat) : Option (Nat × Nat × Int) :=
  let ruta := rutas.getD i default
  if ruta.esVacia then acc
  else
    match evaluarInsercionEnRuta d ruta idServicio with
    | none => acc
    | some opcion =>
      if (match acc with | none => true | some mejor => decide (opcion.2 < mejor.2.2)) then
        some (i, opcion.1, opcion.2)
      else acc

/-- `VSPConstructiveAlgorithm._encontrar_mejor_asignacion`. -/
def encontrarMejorAsignacionVSP (d : VSPDatos) (sol : SolucionVSP) (idServicio : Nat) :
    Option (Nat × Nat × Int) :=
  (List.range sol.rutas.length).foldl (pasoRutaVSP d sol.rutas idServicio) none

/-- `_asignar_a_ruta_existente`. -/
def asignarARutaExistente (d : VSPDatos) (sol : SolucionVSP)
    (idServicio idRuta posicion : Nat) (costoIncremental : Int) : SolucionVSP :=
  let ruta := sol.rutas.getD idRuta default
  let servicio := d.servicios.getD idServicio default
  { sol with
    rutas := sol.rutas.set idRuta
      (ruta.insertarServicio posicion idServicio costoIncremental
        servicio.inicio servicio.fin)
    serviciosAsignados := insert idServicio sol.serviciosAsignados
    costoTotal := sol.costoTotal + costoIncremental }

/-- The two fatal RuntimeErrors of the VSP solve. -/
inductive VSPError
  | flotaAgotada (idServicio : Nat)
  | depositoInalcanzable (idServicio : Nat)
deriving DecidableEq, Repr

/-- `_crear_nueva_ruta`. -/
def crearNuevaRuta (d : VSPDatos) (sol : SolucionVSP) (idServicio : Nat) :
    Except VSPError SolucionVSP :=
  if sol.rutas.length ≥ d.numeroVehiculos then .error (.flotaAgotada idServicio)
  else
    let costoIda := obtenerCostoDesdeDeposito d idServicio
    let costoVuelta := obtenerCostoHaciaDeposito d idServicio
    if costoIda ≥ INFACTIBLE ∨ costoVuelta ≥ INFACTIBLE then
      .error (.depositoInalcanzable idServicio)
    else
      let servicio := d.servicios.getD idServicio default
      let nuevaRuta := (RutaVSP.mk sol.rutas.length [] 0 none none).agregarServicio
        idServicio (costoIda + costoVuelta) servicio.inicio servicio.fin
      .ok { sol with
        rutas := sol.rutas ++ [nuevaRuta]
        serviciosAsignados := insert idServicio sol.serviciosAsignados
        costoTotal := sol.costoTotal + (costoIda + costoVuelta) }

/-- `_procesar_servicio`. -/
def procesarServicio (d : VSPDatos) (sol : SolucionVSP) (idServicio : Nat) :
    Except VSPError SolucionVSP :=
  match encontrarMejorAsignacionVSP d sol idServicio with
  | some (idRuta, posicion, costoIncremental) =>
    .ok (asignarARutaExistente d sol idServicio idRuta posicion costoIncremental)
  | none => crearNuevaRuta d sol idServicio

/-- The four ordering strategies of `_ordenar_servicios`. -/
inductive Estrategia
  | tiempoInicio
  | tiempoFin
  | duracion
  | mixta
deriving DecidableEq, Repr

/-- Strict "key of `a` before key of `b`" comparison for each strategy
(Python tuples compare lexicographically for `mixta`). -/
def claveMenor (d : VSPDatos) (e : Estrategia) (a b : Nat) : Bool :=
  let sa := d.servicios.getD a default
  let sb := d.servicios.getD b default
  match e with
  | .tiempoInicio => decide (sa.inicio < sb.inicio)
  | .tiempoFin => decide (sa.fin < sb.fin)
  | .duracion => decide (sa.fin - sa.inicio < sb.fin - sb.inicio)
  | .mixta => decide (sa.inicio < sb.inicio) ||
      (decide (sa.inicio = sb.inicio) && decide (sa.fin - sa.inicio < sb.fin - sb.inicio))

/-- Stable insertion into a sorted list (earlier-listed elements stay before
equal keys, matching Python's stable `sorted`). -/
def insertarOrdenado (menor : Nat → Nat → Bool) (x : Nat) : List Nat → List Nat
  | [] => [x]
  | y :: ys => if menor y x then y :: insertarOrdenado menor x ys else x :: y :: ys

/-- `_ordenar_servicios`: the service indices sorted by the strategy's key. -/
def ordenarServicios (d : VSPDatos) (e : Estrategia) : List Nat :=
  (List.range d.servicios.length).foldr (insertarOrdenado (claveMenor d e)) []

/-- `VSPConstructiveAlgorithm.resolver`, fixed processing order made explicit;
the final metrics pass runs only when no service aborted the solve. -/
def resolverVSPConOrden (d : VSPDatos) (orden : List Nat) : Except VSPError SolucionVSP := do
  let sol ← orden.foldlM (procesarServicio d) ⟨[], ∅, 0, 0, false, 0, 0⟩
  return calcularMetricasVSP sol d.numeroServicios

def resolverVSP (d : VSPDatos) (estrategia : Estrategia) : Except VSPError SolucionVSP :=
  resolverVSPConOrden d (ordenarServicios d estrategia)

/-! ## C2: the documented 3-service scenario -/

/-- The scenario's matrix after the builder and `VSPData.__post_init__`'s
connection-restriction pass (raw costs: pairwise `5`, depot legs `10`). -/
def matrizC2 : Mat :=
  aplicarRestriccionesConexion
    (construirMatrizVSP [[0,5,5,10],[5,0,5,10],[5,5,0,10],[10,10,10,0]]
      [⟨0,10⟩, ⟨15,25⟩, ⟨30,40⟩] 3)

def instanciaC2 : VSPDatos := ⟨3, 2, [⟨0,10⟩, ⟨15,25⟩, ⟨30,40⟩], matrizC2⟩

/-- C2: code bug.  On the documented scenario (1 depot with 2 vehicles,
services `[0,10]`, `[15,25]`, `[30,40]`, pairwise cost 5, depot legs 10) the
earliest-start solve does not return the single 30-cost route the claim
expects: the truncated temporal-feasibility helper makes the builder mark all
task-task arcs INFEASIBLE, so each service opens its own route and the third
one exhausts the 2-vehicle fleet — the solve aborts with the fleet error.
The instance itself passes `VSPData` validation. -/
theorem c2_escenario_divergencia :
    resolverVSP instanciaC2 .tiempoInicio = .error (.flotaAgotada 2) ∧
    validarDatos instanciaC2 = true ∧
    mget matrizC2 0 1 = INFACTIBLE := by
  refine ⟨by rfl, by decide, by decide⟩

/-! ## C5: fleet exhaustion and new-route creation -/

/-- C5: when a service has no feasible insertion into any existing route
(`hno`), processing it raises the fleet-exhaustion error exactly when the
route count already equals the vehicle count; below that bound it raises the
depot-reachability error exactly when a depot leg is at or above the
sentinel, and otherwise appends a fresh route holding only this service at
cost `depot→s + s→depot`. -/
theorem c5_agotamiento_flota (d : VSPDatos) (sol : SolucionVSP) (idServicio : Nat)
    (hno : encontrarMejorAsignacionVSP d sol idServicio = none)
    (hle : sol.rutas.length ≤ d.numeroVehiculos) :
    (procesarServicio d sol idServicio = .error (.flotaAgotada idServicio) ↔
      sol.rutas.length = d.numeroVehiculos) ∧
    (sol.rutas.length < d.numeroVehiculos →
      ((obtenerCostoDesdeDeposito d idServicio ≥ INFACTIBLE ∨
          obtenerCostoHaciaDeposito d idServicio ≥ INFACTIBLE) →
        procesarServicio d sol idServicio = .error (.depositoInalcanzable idServicio)) ∧
      (obtenerCostoDesdeDeposito d idServicio < INFACTIBLE →
       obtenerCostoHaciaDeposito d idServicio < INFACTIBLE →
        ∃ nuevaRuta : RutaVSP,
          procesarServicio d sol idServicio = .ok
            { sol with
              rutas := sol.rutas ++ [nuevaRuta]
              serviciosAsignados := insert idServicio sol.serviciosAsignados
              costoTotal := sol.costoTotal +
                (obtenerCostoDesdeDeposito d idServicio +
                  obtenerCostoHaciaDeposito d idServicio) } ∧
          nuevaRuta.servicios = [idServicio] ∧
          nuevaRuta.costoTotal =
            obtenerCostoDesdeDeposito d idServicio +
              obtenerCostoHaciaDeposito d idServicio)) := by
  have hproc : procesarServicio d sol idServicio = crearNuevaRuta d sol idServicio := by
    unfold procesarServicio
    rw [hno]
  rw [hproc]
  unfold crearNuevaRuta
  dsimp only
  constructor
  · by_cases hfull : sol.rutas.length ≥ d.numeroVehiculos
    · rw [if_pos hfull]
      exact ⟨fun _ => by omega, fun _ => rfl⟩
    · rw [if_neg hfull]
      constructor
      · intro h
        split at h <;> cases h
      · intro h
        omega
  · intro hlt
    rw [if_neg (by omega)]
    constructor
    · intro h
      rw [if_pos h]
    · intro hida hvuelta
      rw [if_neg (by push_neg; exact ⟨hida, hvuelta⟩)]
      refine ⟨_, rfl, ?_, ?_⟩
      · unfold RutaVSP.agregarServicio
        rfl
      · unfold RutaVSP.agregarServicio
        simp

def instanciaC5 : VSPDatos := ⟨1, 1, [⟨0,10⟩], [[0,10],[10,0]]⟩

def solucionVacia : SolucionVSP := ⟨[], ∅, 0, 0, false, 0, 0⟩

/-- C5 witness: on an empty solution with one vehicle, processing the only
service opens the depot-to-depot route at cost `10 + 10`. -/
theorem c5_testigo :
    ∃ nuevaRuta : RutaVSP,
      procesarServicio instanciaC5 solucionVacia 0 = .ok
        { solucionVacia with
          rutas := solucionVacia.rutas ++ [nuevaRuta]
          serviciosAsignados := insert 0 solucionVacia.serviciosAsignados
          costoTotal := solucionVacia.costoTotal +
            (obtenerCostoDesdeDeposito instanciaC5 0 +
              obtenerCostoHaciaDeposito instanciaC5 0) } ∧
      nuevaRuta.servicios = [0] ∧
      nuevaRuta.costoTotal =
        obtenerCostoDesdeDeposito instanciaC5 0 + obtenerCostoHaciaDeposito instanciaC5 0 :=
  ((c5_agotamiento_flota instanciaC5 solucionVacia 0 rfl (by decide)).2
    (by decide)).2 (by decide) (by decide)

/-! ## Re-scoring a VSP solution from the matrix (claim C9's from-scratch sum) -/

/-- Sum of matrix entries along consecutive nodes of a path. -/
def costoCamino (d : VSPDatos) : List Nat → Int
  | [] => 0
  | [_] => 0
  | a :: b :: resto => mget d.matrizCostos a b + costoCamino d (b :: resto)

/-- The claim's from-scratch route cost: `depot→first` plus the consecutive
arc entries plus `last→depot`; `0` for an empty route. -/
def costoRutaDesdeMatriz (d : VSPDatos) (r : RutaVSP) : Int :=
  match r.servicios with
  | [] => 0
  | _ => costoCamino d (d.numeroServicios :: r.servicios ++ [d.numeroServicios])

/-- The claim's from-scratch total cost. -/
def costoSolucionDesdeMatriz (d : VSPDatos) (sol : SolucionVSP) : Int :=
  (sol.rutas.map (costoRutaDesdeMatriz d)).sum

theorem costoCamino_cons (d : VSPDatos) (a : Nat) (v : List Nat) (hv : v ≠ []) :
    costoCamino d (a :: v) = mget d.matrizCostos a (v.getD 0 0) + costoCamino d v := by
  cases v with
  | nil => exact absurd rfl hv
  | cons b resto => rfl

theorem costoCamino_append (d : VSPDatos) :
    ∀ (u : List Nat) (a : Nat) (v : List Nat),
      costoCamino d (u ++ a :: v) = costoCamino d (u ++ [a]) + costoCamino d (a :: v) := by
  intro u
  induction u with
  | nil =>
      intro a v
      simp [costoCamino]
  | cons x xs ih =>
      intro a v
      cases xs with
      | nil =>
          cases v with
          | nil => simp [costoCamino]
          | cons b resto =>
              show mget d.matrizCostos x a + costoCamino d (a :: b :: resto) = _
              rw [costoCamino_cons d a (b :: resto) (by simp)]
              show _ = mget d.matrizCostos x a + costoCamino d [a] + _
              simp [costoCamino]
      | cons y ys =>
          have h1 : (x :: y :: ys) ++ a :: v = x :: ((y :: ys) ++ a :: v) := rfl
          have h2 : (x :: y :: ys) ++ [a] = x :: ((y :: ys) ++ [a]) := rfl
          rw [h1, h2]
          have hc1 : costoCamino d (x :: ((y :: ys) ++ a :: v)) =
              mget d.matrizCostos x y + costoCamino d ((y :: ys) ++ a :: v) := rfl
          have hc2 : costoCamino d (x :: ((y :: ys) ++ [a])) =
              mget d.matrizCostos x y + costoCamino d ((y :: ys) ++ [a]) := rfl
          rw [hc1, hc2, ih a v]
          ring

theorem costoCamino_concat (d : VSPDatos) :
    ∀ (u : List Nat) (x : Nat), u ≠ [] →
      costoCamino d (u ++ [x]) =
        costoCamino d u + mget d.matrizCostos (u.getD (u.length - 1) 0) x := by
  intro u
  induction u with
  | nil => intro x hx; exact absurd rfl hx
  | cons a resto ih =>
      intro x _
      cases resto with
      | nil => simp [costoCamino]
      | cons b ys =>
          have h1 : (a :: b :: ys) ++ [x] = a :: ((b :: ys) ++ [x]) := rfl
          rw [h1]
          have hc1 : costoCamino d (a :: ((b :: ys) ++ [x])) =
              mget d.matrizCostos a b + costoCamino d ((b :: ys) ++ [x]) := by
            cases ys <;> rfl
          rw [hc1, ih x (by simp)]
          have hl : ((a :: b :: ys).getD ((a :: b :: ys).length - 1) 0) =
              ((b :: ys).getD ((b :: ys).length - 1) 0) := by
            simp
          rw [hl]
          have : costoCamino d (a :: b :: ys) =
              mget d.matrizCostos a b + costoCamino d (b :: ys) := rfl
          rw [this]
          ring

/-- Splicing a node into a path changes its cost by the standard insertion
delta against the split pair. -/
theorem costoCamino_insercion (d : VSPDatos) (P : List Nat) (a : Nat) (k : Nat)
    (h1 : 1 ≤ k) (h2 : k < P.length) :
    costoCamino d (P.take k ++ a :: P.drop k) =
      costoCamino d P +
        (mget d.matrizCostos (P.getD (k - 1) 0) a +
          mget d.matrizCostos a (P.getD k 0) -
          mget d.matrizCostos (P.getD (k - 1) 0) (P.getD k 0)) := by
  have hlentake : (P.take k).length = k := by
    rw [List.length_take]
    omega
  have htkne : P.take k ≠ [] := by
    intro h0
    rw [h0] at hlentake
    simp at hlentake
    omega
  have hdkne : P.drop k ≠ [] := by
    intro h0
    have := List.length_drop k P
    rw [h0] at this
    simp at this
    omega
  have hlast : (P.take k).getD ((P.take k).length - 1) 0 = P.getD (k - 1) 0 := by
    rw [hlentake, List.getD_eq_getElem _ _ (by rw [hlentake]; omega),
      List.getElem_take, List.getD_eq_getElem _ _ (by omega)]
  have hhead : (P.drop k).getD 0 0 = P.getD k 0 := by
    have hk : k < P.length := by omega
    have hd : 0 < (P.drop k).length := by rw [List.length_drop]; omega
    rw [List.getD_eq_getElem _ _ hd, List.getD_eq_getElem _ _ hk, List.getElem_drop]
    simp
  have hPdec : P = P.take k ++ P.drop k := (List.take_append_drop k P).symm
  have hdropdec : P.drop k = P.getD k 0 :: P.drop (k + 1) := by
    rw [List.getD_eq_getElem _ _ (by omega)]
    exact (List.getElem_cons_drop P k (by omega)).symm
  have hizq : costoCamino d (P.take k ++ a :: P.drop k) =
      costoCamino d (P.take k) +
        mget d.matrizCostos (P.getD (k - 1) 0) a +
        (mget d.matrizCostos a (P.getD k 0) + costoCamino d (P.drop k)) := by
    rw [costoCamino_append d (P.take k) a (P.drop k),
      costoCamino_concat d (P.take k) a htkne, hlast,
      costoCamino_cons d a (P.drop k) hdkne, hhead]
  have hder : costoCamino d P =
      costoCamino d (P.take k) +
        mget d.matrizCostos (P.getD (k - 1) 0) (P.getD k 0) + costoCamino d (P.drop k) := by
    conv_lhs => rw [hPdec, hdropdec]
    rw [costoCamino_append d (P.take k) (P.getD k 0) (P.drop (k + 1)),
      costoCamino_concat d (P.take k) (P.getD k 0) htkne, hlast, ← hdropdec]
  rw [hizq, hder]
  ring

/-! ## What a committed VSP insertion guarantees -/

theorem pasoEvaluarPosicion_cases (d : VSPDatos) (ruta : RutaVSP) (idServicio : Nat)
    (acc : Option (Nat × Int)) (posicion : Nat) :
    pasoEvaluarPosicion d ruta idServicio acc posicion = acc ∨
    ∃ c, calcularCostoInsercion d ruta idServicio posicion = some c ∧
      esInsercionFactible d ruta idServicio posicion = true ∧
      pasoEvaluarPosicion d ruta idServicio acc posicion = some (posicion, c) := by
  unfold pasoEvaluarPosicion
  rcases hc : calcularCostoInsercion d ruta idServicio posicion with _ | c
  · simp [hc]
  · simp only [hc]
    split
    · by_cases hf : esInsercionFactible d ruta idServicio posicion = true
      · rw [if_pos hf]
        right
        exact ⟨c, rfl, hf, rfl⟩
      · rw [if_neg hf]
        left
        rfl
    · left
      rfl

/-- Soundness of the per-route position search accumulator. -/
def BuenaEvaluacion (d : VSPDatos) (ruta : RutaVSP) (idServicio : Nat)
    (acc : Option (Nat × Int)) : Prop :=
  ∀ posicion c, acc = some (posicion, c) →
    posicion ≤ ruta.servicios.length ∧
    calcularCostoInsercion d ruta idServicio posicion = some c ∧
    esInsercionFactible d ruta idServicio posicion = true

theorem foldl_pasoEvaluarPosicion_buena (d : VSPDatos) (ruta : RutaVSP) (idServicio : Nat) :
    ∀ (l : List Nat), (∀ x ∈ l, x ≤ ruta.servicios.length) →
      ∀ {acc}, BuenaEvaluacion d ruta idServicio acc →
      BuenaEvaluacion d ruta idServicio
        (l.foldl (pasoEvaluarPosicion d ruta idServicio) acc) := by
  intro l
  induction l with
  | nil => intro _ acc hacc; exact hacc
  | cons x xs ih =>
      intro hl acc hacc
      rw [List.foldl_cons]
      refine ih (fun y hy => hl y (List.mem_cons_of_mem x hy)) ?_
      rcases pasoEvaluarPosicion_cases d ruta idServicio acc x with h | ⟨c, hc, hf, h⟩
      · rw [h]
        exact hacc
      · rw [h]
        intro posicion c' hp
        simp only [Option.some.injEq, Prod.mk.injEq] at hp
        obtain ⟨rfl, rfl⟩ := hp
        exact ⟨hl x (List.mem_cons_self x xs), hc, hf⟩

/-- `_evaluar_insercion_en_ruta` only returns gated positions and costs. -/
theorem evaluarInsercionEnRuta_spec (d : VSPDatos) (ruta : RutaVSP) (idServicio : Nat)
    {posicion : Nat} {c : Int}
    (h : evaluarInsercionEnRuta d ruta idServicio = some (posicion, c)) :
    posicion ≤ ruta.servicios.length ∧
    calcularCostoInsercion d ruta idServicio posicion = some c ∧
    esInsercionFactible d ruta idServicio posicion = true := by
  unfold evaluarInsercionEnRuta at h
  refine foldl_pasoEvaluarPosicion_buena d ruta idServicio _ ?_ ?_ posicion c h
  · intro x hx
    have := List.mem_range.mp hx
    omega
  · intro p c' hp
    cases hp

theorem pasoRutaVSP_cases (d : VSPDatos) (rutas : List RutaVSP) (idServicio : Nat)
    (acc : Option (Nat × Nat × Int)) (i : Nat) :
    pasoRutaVSP d rutas idServicio acc i = acc ∨
    ∃ posicion c, (rutas.getD i default).esVacia = false ∧
      evaluarInsercionEnRuta d (rutas.getD i default) idServicio = some (posicion, c) ∧
      pasoRutaVSP d rutas idServicio acc i = some (i, posicion, c) := by
  unfold pasoRutaVSP
  dsimp only
  by_cases hv : (rutas.getD i default).esVacia = true
  · rw [if_pos hv]
    left
    rfl
  · rw [if_neg hv]
    rcases he : evaluarInsercionEnRuta d (rutas.getD i default) idServicio with _ | op
    · simp only [he]
      left
      trivial
    · simp only [he]
      split
      · right
        exact ⟨op.1, op.2, Bool.eq_false_iff.mpr hv, rfl, rfl⟩
      · left
        rfl

/-- Soundness of the route-selection accumulator of the VSP scheduler. -/
def BuenaAsignacionVSP (d : VSPDatos) (rutas : List RutaVSP) (idServicio : Nat)
    (acc : Option (Nat × Nat × Int)) : Prop :=
  ∀ i posicion c, acc = some (i, posicion, c) →
    i < rutas.length ∧ (rutas.getD i default).esVacia = false ∧
    evaluarInsercionEnRuta d (rutas.getD i default) idServicio = some (posicion, c)

theorem foldl_pasoRutaVSP_buena (d : VSPDatos) (rutas : List RutaVSP) (idServicio : Nat) :
    ∀ (l : List Nat), (∀ x ∈ l, x < rutas.length) →
      ∀ {acc}, BuenaAsignacionVSP d rutas idServicio acc →
      BuenaAsignacionVSP d rutas idServicio
        (l.foldl (pasoRutaVSP d rutas idServicio) acc) := by
  intro l
  induction l with
  | nil => intro _ acc hacc; exact hacc
  | cons x xs ih =>
      intro hl acc hacc
      rw [List.foldl_cons]
      refine ih (fun y hy => hl y (List.mem_cons_of_mem x hy)) ?_
      rcases pasoRutaVSP_cases d rutas idServicio acc x with h | ⟨posicion, c, hv, he, h⟩
      · rw [h]
        exact hacc
      · rw [h]
        intro i p c' hp
        simp only [Option.some.injEq, Prod.mk.injEq] at hp
        obtain ⟨rfl, rfl, rfl⟩ := hp
        exact ⟨hl x (List.mem_cons_self x xs), hv, he⟩

/-- `VSPConstructiveAlgorithm._encontrar_mejor_asignacion` only returns real,
non-empty routes together with that route's own evaluation. -/
theorem encontrarMejorAsignacionVSP_spec (d : VSPDatos) (sol : SolucionVSP)
    (idServicio : Nat) {i posicion : Nat} {c : Int}
    (h : encontrarMejorAsignacionVSP d sol idServicio = some (i, posicion, c)) :
    i < sol.rutas.length ∧ (sol.rutas.getD i default).esVacia = false ∧
    evaluarInsercionEnRuta d (sol.rutas.getD i default) idServicio = some (posicion, c) := by
  unfold encontrarMejorAsignacionVSP at h
  refine foldl_pasoRutaVSP_buena d sol.rutas idServicio _ ?_ ?_ i posicion c h
  · intro x hx
    exact List.mem_range.mp hx
  · intro i p c' hp
    cases hp

/-- A feasible connection cost below the sentinel is the raw matrix entry. -/
theorem obtenerCostoConexion_lt (d : VSPDatos) (origen destino : Nat)
    (h : obtenerCostoConexion d origen destino < INFACTIBLE) :
    obtenerCostoConexion d origen destino = mget d.matrizCostos origen destino := by
  unfold obtenerCostoConexion at h ⊢
  by_cases hf : esConexionFactible d origen destino = true
  · rw [if_pos hf]
  · rw [if_neg hf] at h
    exact absurd h (lt_irrefl _)

theorem getD_camino_medio (l : List Nat) (n : Nat) {j : Nat} (hj : j < l.length) :
    ((n :: (l ++ [n])).getD (j + 1) 0) = l.getD j 0 := by
  show (l ++ [n]).getD j 0 = l.getD j 0
  rw [List.getD_append _ _ _ _ hj]

theorem getD_camino_fin (l : List Nat) (n : Nat) :
    ((n :: (l ++ [n])).getD (l.length + 1) 0) = n := by
  show (l ++ [n]).getD l.length 0 = n
  rw [List.getD_eq_getElem _ _ (by simp), List.getElem_append_right (le_refl _)]
  simp

/-- The committed VSP insertion delta is exactly the change of the
from-scratch closed-tour cost. -/
theorem costoCamino_insercion_vsp (d : VSPDatos) (ruta : RutaVSP) (idServicio posicion : Nat)
    {c : Int} (hne : ruta.servicios ≠ []) (hple : posicion ≤ ruta.servicios.length)
    (hc : calcularCostoInsercion d ruta idServicio posicion = some c) :
    costoCamino d (d.numeroServicios ::
        (ruta.servicios.insertIdx posicion idServicio) ++ [d.numeroServicios]) =
      costoCamino d (d.numeroServicios :: ruta.servicios ++ [d.numeroServicios]) + c := by
  obtain ⟨idVeh, l, costoR, tIni, tFin⟩ := ruta
  dsimp only at hne hple hc ⊢
  have hlen : l.length ≠ 0 := fun h0 => hne (List.length_eq_zero.mp h0)
  have hdescomp : (d.numeroServicios :: (l.insertIdx posicion idServicio) ++
      [d.numeroServicios]) =
      (d.numeroServicios :: (l ++ [d.numeroServicios])).take (posicion + 1) ++ idServicio ::
        (d.numeroServicios :: (l ++ [d.numeroServicios])).drop (posicion + 1) := by
    rw [insertIdx_eq_take_drop posicion l idServicio hple]
    have ht : (d.numeroServicios :: (l ++ [d.numeroServicios])).take (posicion + 1) =
        d.numeroServicios :: l.take posicion := by
      rw [List.take_succ_cons, List.take_append_of_le_length hple]
    have hd : (d.numeroServicios :: (l ++ [d.numeroServicios])).drop (posicion + 1) =
        l.drop posicion ++ [d.numeroServicios] := by
      rw [List.drop_succ_cons, List.drop_append_of_le_length hple]
    rw [ht, hd]
    simp
  rw [hdescomp]
  have hPlen : (d.numeroServicios :: (l ++ [d.numeroServicios])).length = l.length + 2 := by
    simp
  rw [costoCamino_insercion d (d.numeroServicios :: (l ++ [d.numeroServicios])) idServicio
    (posicion + 1) (by omega) (by rw [hPlen]; omega)]
  have hsimp1 : posicion + 1 - 1 = posicion := by omega
  rw [hsimp1]
  have hΔ : mget d.matrizCostos
        ((d.numeroServicios :: (l ++ [d.numeroServicios])).getD posicion 0) idServicio +
      mget d.matrizCostos idServicio
        ((d.numeroServicios :: (l ++ [d.numeroServicios])).getD (posicion + 1) 0) -
      mget d.matrizCostos
        ((d.numeroServicios :: (l ++ [d.numeroServicios])).getD posicion 0)
        ((d.numeroServicios :: (l ++ [d.numeroServicios])).getD (posicion + 1) 0) = c := by
    unfold calcularCostoInsercion at hc
    dsimp only at hc
    rw [if_neg (by omega)] at hc
    by_cases hfin : posicion = l.length
    · rw [if_pos hfin] at hc
      unfold calcularCostoInsercionFinal at hc
      dsimp only at hc
      rw [if_neg (by
        unfold RutaVSP.esVacia
        simpa using hne)] at hc
      split at hc
      · cases hc
      · next hgate =>
          push_neg at hgate
          obtain ⟨hconex, hreg, horig⟩ := hgate
          simp only [Option.some.injEq] at hc
          have hprev : (d.numeroServicios :: (l ++ [d.numeroServicios])).getD posicion 0 =
              l.getD (l.length - 1) 0 := by
            have he : posicion = (l.length - 1) + 1 := by omega
            rw [he, getD_camino_medio l d.numeroServicios (by omega)]
          have hnext : (d.numeroServicios ::
              (l ++ [d.numeroServicios])).getD (posicion + 1) 0 = d.numeroServicios := by
            rw [hfin]
            exact getD_camino_fin l d.numeroServicios
          rw [hprev, hnext, ← hc, obtenerCostoConexion_lt d _ _ (by omega)]
          unfold obtenerCostoHaciaDeposito
          ring
    · rw [if_neg hfin] at hc
      by_cases h0 : posicion = 0
      · subst h0
        rw [if_pos rfl] at hc
        unfold calcularCostoInsercionInicio at hc
        dsimp only at hc
        split at hc
        · cases hc
        · next hgate =>
            push_neg at hgate
            obtain ⟨hida, hconex, horig⟩ := hgate
            simp only [Option.some.injEq] at hc
            have hnext : (d.numeroServicios ::
                (l ++ [d.numeroServicios])).getD 1 0 = l.getD 0 0 := by
              have h01 : (1 : Nat) = 0 + 1 := rfl
              rw [h01, getD_camino_medio l d.numeroServicios (by omega)]
            have hprev0 : (d.numeroServicios ::
                (l ++ [d.numeroServicios])).getD 0 0 = d.numeroServicios := rfl
            rw [hprev0, hnext, ← hc, obtenerCostoConexion_lt d _ _ (by omega)]
            unfold obtenerCostoDesdeDeposito
            ring
      · rw [if_neg h0] at hc
        unfold calcularCostoInsercionMedio at hc
        dsimp only at hc
        split at hc
        · cases hc
        · next hgate =>
            push_neg at hgate
            obtain ⟨hent, hsal, horig⟩ := hgate
            simp only [Option.some.injEq] at hc
            have hprev : (d.numeroServicios ::
                (l ++ [d.numeroServicios])).getD posicion 0 = l.getD (posicion - 1) 0 := by
              have he : posicion = (posicion - 1) + 1 := by omega
              conv_lhs => rw [he]
              rw [getD_camino_medio l d.numeroServicios (by omega)]
            have hnext : (d.numeroServicios ::
                (l ++ [d.numeroServicios])).getD (posicion + 1) 0 = l.getD posicion 0 := by
              rw [getD_camino_medio l d.numeroServicios (by omega)]
            rw [hprev, hnext, ← hc,
              obtenerCostoConexion_lt d _ _ (by omega),
              obtenerCostoConexion_lt d _ _ (by omega),
              obtenerCostoConexion_lt d _ _ (by omega)]
  rw [hΔ, List.cons_append]

/-- A nonempty route's from-scratch cost is the closed-tour path cost. -/
theorem costoRutaDesdeMatriz_ne (d : VSPDatos) (r : RutaVSP) (hne : r.servicios ≠ []) :
    costoRutaDesdeMatriz d r =
      costoCamino d (d.numeroServicios :: r.servicios ++ [d.numeroServicios]) := by
  unfold costoRutaDesdeMatriz
  rcases hs : r.servicios with _ | ⟨a, l⟩
  · exact absurd hs hne
  · rfl

/-- Every route's maintained `costoTotal` agrees with the from-scratch
matrix recomputation. -/
def CostosExactos (d : VSPDatos) (sol : SolucionVSP) : Prop :=
  ∀ r ∈ sol.rutas, r.costoTotal = costoRutaDesdeMatriz d r

theorem costoRutaDesdeMatriz_insertar (d : VSPDatos) (ruta : RutaVSP)
    (idServicio posicion : Nat) {c : Int} (a b : Int)
    (hne : ruta.servicios ≠ []) (hple : posicion ≤ ruta.servicios.length)
    (hc : calcularCostoInsercion d ruta idServicio posicion = some c) :
    costoRutaDesdeMatriz d (ruta.insertarServicio posicion idServicio c a b) =
      costoRutaDesdeMatriz d ruta + c := by
  have hne' : (ruta.insertarServicio posicion idServicio c a b).servicios ≠ [] := by
    show ruta.servicios.insertIdx posicion idServicio ≠ []
    intro h0
    have := (insertIdx_perm posicion ruta.servicios idServicio hple).length_eq
    rw [h0] at this
    simp at this
  rw [costoRutaDesdeMatriz_ne d _ hne', costoRutaDesdeMatriz_ne d _ hne]
  exact costoCamino_insercion_vsp d ruta idServicio posicion hne hple hc

theorem costosExactos_paso (d : VSPDatos) {sol sol' : SolucionVSP} {idServicio : Nat}
    (h : CostosExactos d sol) (hp : procesarServicio d sol idServicio = .ok sol') :
    CostosExactos d sol' := by
  unfold procesarServicio at hp
  rcases hfind : encontrarMejorAsignacionVSP d sol idServicio with _ | ⟨i, posicion, c⟩
  · rw [hfind] at hp
    change crearNuevaRuta d sol idServicio = Except.ok sol' at hp
    unfold crearNuevaRuta at hp
    split at hp
    · cases hp
    · dsimp only at hp
      split at hp
      · cases hp
      · next hgate =>
          push_neg at hgate
          simp only [Except.ok.injEq] at hp
          subst hp
          intro r hr
          dsimp only at hr
          rcases List.mem_append.mp hr with hrold | hrnew
          · exact h r hrold
          · have hr' : r = (RutaVSP.mk sol.rutas.length [] 0 none none).agregarServicio
                idServicio
                (obtenerCostoDesdeDeposito d idServicio +
                  obtenerCostoHaciaDeposito d idServicio)
                (d.servicios.getD idServicio default).inicio
                (d.servicios.getD idServicio default).fin := by
              simpa using hrnew
            subst hr'
            show (0 : Int) + _ = costoRutaDesdeMatriz d _
            rw [costoRutaDesdeMatriz_ne d _ (by
              show [] ++ [idServicio] ≠ []
              simp)]
            show 0 + (obtenerCostoDesdeDeposito d idServicio +
                obtenerCostoHaciaDeposito d idServicio) =
              costoCamino d (d.numeroServicios :: ([] ++ [idServicio]) ++ [d.numeroServicios])
            show _ = mget d.matrizCostos d.numeroServicios idServicio +
              (mget d.matrizCostos idServicio d.numeroServicios + 0)
            unfold obtenerCostoDesdeDeposito obtenerCostoHaciaDeposito
            ring
  · rw [hfind] at hp
    change Except.ok (asignarARutaExistente d sol idServicio i posicion c) =
      Except.ok sol' at hp
    simp only [Except.ok.injEq] at hp
    subst hp
    obtain ⟨hi, hnv, heval⟩ := encontrarMejorAsignacionVSP_spec d sol idServicio hfind
    obtain ⟨hple, hc, _⟩ := evaluarInsercionEnRuta_spec d _ idServicio heval
    have hne : (sol.rutas.getD i default).servicios ≠ [] := by
      intro h0
      unfold RutaVSP.esVacia at hnv
      rw [h0] at hnv
      cases hnv
    intro r hr
    dsimp only [asignarARutaExistente] at hr
    rcases List.mem_or_eq_of_mem_set hr with hrold | hrins
    · exact h r hrold
    · subst hrins
      show (sol.rutas.getD i default).costoTotal + c = _
      rw [costoRutaDesdeMatriz_insertar d _ idServicio posicion _ _ hne hple hc]
      have hmem : sol.rutas.getD i default ∈ sol.rutas := by
        rw [List.getD_eq_getElem sol.rutas default hi]
        exact List.getElem_mem hi
      rw [h _ hmem]

theorem costosExactos_foldlM (d : VSPDatos) :
    ∀ (orden : List Nat) (sol : SolucionVSP), CostosExactos d sol →
      ∀ {sol' : SolucionVSP},
        orden.foldlM (procesarServicio d) sol = Except.ok sol' →
      CostosExactos d sol' := by
  intro orden
  induction orden with
  | nil =>
      intro sol h sol' hf
      simp only [List.foldlM_nil] at hf
      cases hf
      exact h
  | cons x xs ih =>
      intro sol h sol' hf
      rw [List.foldlM_cons] at hf
      rcases hx : procesarServicio d sol x with e | sol1
      · rw [hx] at hf
        cases hf
      · rw [hx] at hf
        exact ih sol1 (costosExactos_paso d h hx) hf

/-! ## C9: idempotent re-scoring -/

/-- C9 (amended): the VSP constructive scheduler's maintained total cost is
exactly the from-scratch matrix recomputation, for every returned solution;
the MDVSP scheduler does not satisfy the original claim. -/
theorem c9_enmendada (d : VSPDatos) (e : Estrategia) (sol : SolucionVSP)
    (h : resolverVSP d e = Except.ok sol) :
    costoSolucionDesdeMatriz d sol = sol.costoTotal := by
  unfold resolverVSP resolverVSPConOrden at h
  rcases hf : (ordenarServicios d e).foldlM (procesarServicio d)
      ⟨[], ∅, 0, 0, false, 0, 0⟩ with er | sol0
  · rw [hf] at h
    change (Except.error er : Except VSPError SolucionVSP) = Except.ok sol at h
    cases h
  · rw [hf] at h
    change Except.ok (calcularMetricasVSP sol0 d.numeroServicios) = Except.ok sol at h
    simp only [Except.ok.injEq] at h
    subst h
    have hce : CostosExactos d sol0 :=
      costosExactos_foldlM d _ _ (fun r hr => absurd hr (List.not_mem_nil r)) hf
    unfold costoSolucionDesdeMatriz calcularMetricasVSP
    dsimp only
    exact congrArg List.sum (List.map_congr_left fun r hr => (hce r hr).symm)

/-- The spec's from-scratch MDVSP route cost: depot→first, consecutive arcs,
last→depot (matrix cells read through `obtener_costo`); `0` when empty. -/
def costoCaminoMD (inst : MDVSPDatos) : List Nat → Int
  | [] => 0
  | [_] => 0
  | a :: b :: resto => obtenerCosto inst a b + costoCaminoMD inst (b :: resto)

def costoRutaDesdeMatrizMD (inst : MDVSPDatos) (r : Ruta) : Int :=
  match r.viajes with
  | [] => 0
  | _ => costoCaminoMD inst ((inst.numeroViajes + r.idDeposito) :: r.viajes ++
      [inst.numeroViajes + r.idDeposito])

def costoSolucionDesdeMatrizMD (inst : MDVSPDatos) (sol : SolucionMDVSP) : Int :=
  (sol.rutas.map (costoRutaDesdeMatrizMD inst)).sum

/-- One depot with one vehicle, two trips with identical zero-length windows;
the arc `0→1` carries the sentinel, `1→0` is prohibitively priced too. -/
def instanciaC9 : MDVSPDatos :=
  ⟨2, [⟨0, 1⟩], [⟨0, 5, 5⟩, ⟨1, 5, 5⟩],
    [[0, 100000000, 5], [100000000, 0, 5], [6, 7, 0]]⟩

/-- Two services on one vehicle for the amended theorem's witness. -/
def instanciaC9V : VSPDatos :=
  ⟨2, 2, [⟨0, 10⟩, ⟨20, 30⟩], [[0, 5, 10], [5, 0, 10], [10, 10, 0]]⟩

/-- C9 counterexample: the MDVSP scheduler returns a solution whose
maintained total cost differs from the from-scratch recomputation (the
committed assignment delta was priced at one position, but the re-searched
splice position is another, cheaper one). -/
theorem c9_contraejemplo :
    costoSolucionDesdeMatrizMD instanciaC9 (resolverCS instanciaC9) = 100000011 ∧
    (resolverCS instanciaC9).costoTotal = 100000012 := by
  exact ⟨by decide, by decide⟩

theorem c9_enmendada_testigo :
    ∃ sol, resolverVSP instanciaC9V Estrategia.tiempoInicio = Except.ok sol ∧
      costoSolucionDesdeMatriz instanciaC9V sol = sol.costoTotal :=
  ⟨_, rfl, c9_enmendada instanciaC9V Estrategia.tiempoInicio _ rfl⟩

/-! ## C8: conservation of assigned services -/

/-- All services stored across the routes, in route order. -/
def serviciosEnRutas (sol : SolucionVSP) : List Nat :=
  (sol.rutas.map RutaVSP.servicios).flatten

/-- The VSP scheduler's conservation invariant: the routes hold each service
at most once overall, and exactly the members of the assigned set. -/
def InvC8VSP (sol : SolucionVSP) : Prop :=
  (serviciosEnRutas sol).Nodup ∧
  ∀ s, s ∈ serviciosEnRutas sol ↔ s ∈ sol.serviciosAsignados

theorem serviciosEnRutas_asignar (d : VSPDatos) (sol : SolucionVSP)
    (idServicio i posicion : Nat) (c : Int) (hi : i < sol.rutas.length)
    (hple : posicion ≤ (sol.rutas.getD i default).servicios.length) :
    List.Perm (serviciosEnRutas (asignarARutaExistente d sol idServicio i posicion c))
      (idServicio :: serviciosEnRutas sol) := by
  obtain ⟨hdec1, hdec2⟩ := list_set_decomp sol.rutas i hi
    ((sol.rutas.getD i default).insertarServicio posicion idServicio c
      (d.servicios.getD idServicio default).inicio
      (d.servicios.getD idServicio default).fin)
  unfold serviciosEnRutas asignarARutaExistente
  dsimp only
  rw [hdec2]
  conv_rhs => rw [hdec1]
  rw [List.map_append, List.map_append, List.map_cons, List.map_cons,
    List.flatten_append, List.flatten_append, List.flatten_cons, List.flatten_cons]
  have hserv : ((sol.rutas.getD i default).insertarServicio posicion idServicio c
      (d.servicios.getD idServicio default).inicio
      (d.servicios.getD idServicio default).fin).servicios =
      (sol.rutas.getD i default).servicios.insertIdx posicion idServicio := rfl
  rw [hserv]
  refine List.Perm.trans (List.Perm.append_left _
    (List.Perm.append_right _ (insertIdx_perm posicion _ idServicio hple))) ?_
  rw [List.cons_append]
  exact List.perm_middle

/-- Concluding the invariant from a `cons` permutation of the route contents. -/
theorem invC8_de_perm {sol sol' : SolucionVSP} {idServicio : Nat}
    (hnd : (serviciosEnRutas sol).Nodup)
    (hmem : ∀ s, s ∈ serviciosEnRutas sol ↔ s ∈ sol.serviciosAsignados)
    (hidnotin : idServicio ∉ serviciosEnRutas sol)
    (hperm : List.Perm (serviciosEnRutas sol') (idServicio :: serviciosEnRutas sol))
    (hasig : sol'.serviciosAsignados = insert idServicio sol.serviciosAsignados) :
    InvC8VSP sol' := by
  constructor
  · rw [hperm.nodup_iff]
    exact List.nodup_cons.mpr ⟨hidnotin, hnd⟩
  · intro s
    rw [hperm.mem_iff, hasig, List.mem_cons, Finset.mem_insert, hmem s]

theorem invC8_paso (d : VSPDatos) {sol sol' : SolucionVSP} {idServicio : Nat}
    (h : InvC8VSP sol) (hfresh : idServicio ∉ sol.serviciosAsignados)
    (hp : procesarServicio d sol idServicio = Except.ok sol') :
    InvC8VSP sol' ∧
      sol'.serviciosAsignados = insert idServicio sol.serviciosAsignados := by
  obtain ⟨hnd, hmem⟩ := h
  have hidnotin : idServicio ∉ serviciosEnRutas sol :=
    fun hin => hfresh ((hmem idServicio).mp hin)
  unfold procesarServicio at hp
  rcases hfind : encontrarMejorAsignacionVSP d sol idServicio with _ | ⟨i, posicion, c⟩
  · rw [hfind] at hp
    change crearNuevaRuta d sol idServicio = Except.ok sol' at hp
    unfold crearNuevaRuta at hp
    split at hp
    · cases hp
    · dsimp only at hp
      split at hp
      · cases hp
      · simp only [Except.ok.injEq] at hp
        subst hp
        refine ⟨invC8_de_perm hnd hmem hidnotin ?_ rfl, rfl⟩
        unfold serviciosEnRutas
        dsimp only
        rw [List.map_append, List.flatten_append]
        exact List.perm_append_singleton idServicio _
  · rw [hfind] at hp
    change Except.ok (asignarARutaExistente d sol idServicio i posicion c) =
      Except.ok sol' at hp
    simp only [Except.ok.injEq] at hp
    subst hp
    obtain ⟨hi, hnv, heval⟩ := encontrarMejorAsignacionVSP_spec d sol idServicio hfind
    obtain ⟨hple, _, _⟩ := evaluarInsercionEnRuta_spec d _ idServicio heval
    exact ⟨invC8_de_perm hnd hmem hidnotin
      (serviciosEnRutas_asignar d sol idServicio i posicion c hi hple) rfl, rfl⟩

theorem invC8_foldlM (d : VSPDatos) :
    ∀ (orden : List Nat) (sol : SolucionVSP), InvC8VSP sol →
      (∀ s ∈ orden, s ∉ sol.serviciosAsignados) → orden.Nodup →
      ∀ {sol' : SolucionVSP},
        orden.foldlM (procesarServicio d) sol = Except.ok sol' → InvC8VSP sol' := by
  intro orden
  induction orden with
  | nil =>
      intro sol h _ _ sol' hf
      simp only [List.foldlM_nil] at hf
      cases hf
      exact h
  | cons x xs ih =>
      intro sol h hfresh hnd sol' hf
      rw [List.foldlM_cons] at hf
      rcases hx : procesarServicio d sol x with e | sol1
      · rw [hx] at hf
        cases hf
      · rw [hx] at hf
        obtain ⟨h1, hasig⟩ := invC8_paso d h (hfresh x (List.mem_cons_self x xs)) hx
        refine ih sol1 h1 ?_ (List.nodup_cons.mp hnd).2 hf
        intro s hs hcon
        rw [hasig] at hcon
        rcases Finset.mem_insert.mp hcon with rfl | hmem
        · exact (List.nodup_cons.mp hnd).1 hs
        · exact hfresh s (List.mem_cons_of_mem x hs) hmem

theorem invC8_inicial : InvC8VSP solucionVacia := by
  constructor
  · exact List.nodup_nil
  · intro s
    simp [serviciosEnRutas, solucionVacia]

theorem insertarOrdenado_perm (menor : Nat → Nat → Bool) (x : Nat) :
    ∀ l : List Nat, List.Perm (insertarOrdenado menor x l) (x :: l) := by
  intro l
  induction l with
  | nil => exact List.Perm.refl _
  | cons y ys ih =>
      unfold insertarOrdenado
      split
      · exact (List.Perm.cons y ih).trans (List.Perm.swap x y ys)
      · exact List.Perm.refl _

theorem ordenarServicios_perm (d : VSPDatos) (e : Estrategia) :
    List.Perm (ordenarServicios d e) (List.range d.servicios.length) := by
  unfold ordenarServicios
  generalize List.range d.servicios.length = l
  induction l with
  | nil => exact List.Perm.refl _
  | cons x xs ih =>
      rw [List.foldr_cons]
      exact (insertarOrdenado_perm _ x _).trans (List.Perm.cons x ih)

theorem ordenarServicios_nodup (d : VSPDatos) (e : Estrategia) :
    (ordenarServicios d e).Nodup :=
  ((ordenarServicios_perm d e).nodup_iff).mpr (List.nodup_range _)

/-- C8: at every intermediate state of either scheduler's run, the route
lengths sum to the assigned-set cardinality, and no task id ever repeats
within a route or across two routes. -/
theorem c8_conservacion :
    (∀ (d : VSPDatos) (e : Estrategia) (pre : List Nat) (sol : SolucionVSP),
        pre <+: ordenarServicios d e →
        pre.foldlM (procesarServicio d) solucionVacia = Except.ok sol →
        (sol.rutas.map fun r => r.servicios.length).sum =
          sol.serviciosAsignados.card ∧
        (∀ r ∈ sol.rutas, r.servicios.Nodup) ∧
        (sol.rutas.map RutaVSP.servicios).Pairwise List.Disjoint) ∧
    (∀ (inst : MDVSPDatos) (k : Nat),
        ((iterarCS inst k (estadoInicialCS inst)).sol.rutas.map fun r =>
          r.viajes.length).sum =
          (iterarCS inst k (estadoInicialCS inst)).sol.viajesAsignados.card ∧
        (∀ r ∈ (iterarCS inst k (estadoInicialCS inst)).sol.rutas, r.viajes.Nodup) ∧
        (iterarCS inst k (estadoInicialCS inst)).sol.rutas.Pairwise
          (fun r s => ∀ v ∈ r.viajes, v ∉ s.viajes)) := by
  constructor
  · intro d e pre sol hpre hf
    have hnd : pre.Nodup :=
      List.Nodup.sublist hpre.sublist (ordenarServicios_nodup d e)
    obtain ⟨hjnd, hjm⟩ := invC8_foldlM d pre solucionVacia invC8_inicial
      (fun s _ => by simp [solucionVacia]) hnd hf
    have hcomp := List.nodup_flatten.mp hjnd
    refine ⟨?_, ?_, hcomp.2⟩
    · have hlen : (serviciosEnRutas sol).length =
          (sol.rutas.map fun r => r.servicios.length).sum := by
        unfold serviciosEnRutas
        rw [List.length_flatten, List.map_map]
        rfl
      have hfin : (serviciosEnRutas sol).toFinset = sol.serviciosAsignados := by
        ext s
        rw [List.mem_toFinset]
        exact hjm s
      rw [← hlen, ← hfin]
      exact (List.toFinset_card_of_nodup hjnd).symm
    · intro r hr
      exact hcomp.1 r.servicios (List.mem_map_of_mem RutaVSP.servicios hr)
  · intro inst k
    obtain ⟨_, _, _, hndr, hpair, _, hsum, _⟩ :=
      invCS_iterar inst k (estadoInicialCS inst) (invCS_inicial inst)
    exact ⟨hsum, hndr, hpair⟩

theorem c8_conservacion_testigo :
    (∃ sol, [0].foldlM (procesarServicio instanciaC5) solucionVacia = Except.ok sol ∧
      ((sol.rutas.map fun r => r.servicios.length).sum =
          sol.serviciosAsignados.card ∧
        (∀ r ∈ sol.rutas, r.servicios.Nodup) ∧
        (sol.rutas.map RutaVSP.servicios).Pairwise List.Disjoint)) ∧
    (((iterarCS instanciaC3 1 (estadoInicialCS instanciaC3)).sol.rutas.map fun r =>
        r.viajes.length).sum =
      (iterarCS instanciaC3 1 (estadoInicialCS instanciaC3)).sol.viajesAsignados.card ∧
      (∀ r ∈ (iterarCS instanciaC3 1 (estadoInicialCS instanciaC3)).sol.rutas,
        r.viajes.Nodup) ∧
      (iterarCS instanciaC3 1 (estadoInicialCS instanciaC3)).sol.rutas.Pairwise
        (fun r s => ∀ v ∈ r.viajes, v ∉ s.viajes)) :=
  ⟨⟨_, rfl, c8_conservacion.1 instanciaC5 Estrategia.tiempoInicio [0] _ ⟨[], rfl⟩ rfl⟩,
    c8_conservacion.2 instanciaC3 1⟩
